import Mathlib

/-! The view type dd::span.

A shallow embedding of `include/dd/span.hpp` (namespace `dd`): the non-owning
view `span<ElementType, Extent>`, its storage, its constructors, observers,
element access and sub-view derivation, together with the contract-checking
macro `DD_SPAN_EXPECT`.

Conventions of the embedding.

* `std::size_t` has `w` bits; a `size_t` value is a natural number below
  `2 ^ w`, and every `size_t` operation of the source is written with an
  explicit `% 2 ^ w`.  `SIZE_MAX` comes from `<cstdint>`, so `w` is a parameter.
* A pointer is a byte address.  `p + n` on an `ElementType *` moves by
  `n * sizeof(ElementType)` bytes; pointer arithmetic is exact (the abstract
  machine gives it no wrap-around meaning).
* A `reference` returned by element access is represented by the address of
  the element it is bound to.
* An operation that runs `DD_SPAN_EXPECT` yields an `Outcome`: it returns, or
  `contract_violation` throws, or `contract_violation` terminates.  The
  message string passed to `contract_violation` is not represented.
-/

set_option autoImplicit false

namespace dd

/-! ## Machine integers -/

/-- Largest `std::size_t` value when `size_t` has `w` bits (`<cstdint>`). -/
def SIZE_MAX (w : Nat) : Nat := 2 ^ w - 1

/-- Sentinel extent, `dynamic_extent = SIZE_MAX` (span.hpp:145). -/
def dynamic_extent (w : Nat) : Nat := SIZE_MAX w

/-- Sum of two `size_t` values, as computed by the machine. -/
def size_add (w a b : Nat) : Nat := (a + b) % 2 ^ w

/-- Difference of two `size_t` values, as computed by the machine. -/
def size_sub (w a b : Nat) : Nat := (a + 2 ^ w - b) % 2 ^ w

/-- Product of two `size_t` values, as computed by the machine. -/
def size_mul (w a b : Nat) : Nat := (a * b) % 2 ^ w

/-- Conversion of an integer (an `int` argument, a `ptrdiff_t`) to `size_t`. -/
def to_size_t (w : Nat) (z : Int) : Nat := (z % (2 : Int) ^ w).toNat

/-- Value of `static_cast<std::ptrdiff_t>(n)` for a `size_t` value `n`. -/
def to_ptrdiff_t (w n : Nat) : Int :=
  if n < 2 ^ (w - 1) then (n : Int) else (n : Int) - (2 : Int) ^ w

/-! ## Element types and pointers -/

/-- An element type: the identity of its cv-unqualified object type, its
`sizeof`, and its cv-qualifiers. -/
structure ElementType where
  base : Nat
  sizeof : Nat
  is_const : Bool
  is_volatile : Bool
deriving DecidableEq

/-- A pointer value: a byte address. -/
structure Ptr where
  addr : Int
deriving DecidableEq

/-- The null pointer. -/
def nullptr : Ptr := ⟨0⟩

/-- Pointer plus count, `p + n`, on a pointer to objects of `sz` bytes. -/
def Ptr.add (sz : Nat) (p : Ptr) (n : Nat) : Ptr := ⟨p.addr + (sz : Int) * (n : Int)⟩

/-- Pointer minus count, `p - n`, on a pointer to objects of `sz` bytes. -/
def Ptr.sub (sz : Nat) (p : Ptr) (n : Nat) : Ptr := ⟨p.addr - (sz : Int) * (n : Int)⟩

/-- Pointer difference `a - b` in elements of `sz` bytes (a `ptrdiff_t`). -/
def Ptr.diff (sz : Nat) (a b : Ptr) : Int := (a.addr - b.addr) / (sz : Int)

/-! ## Contract checking (span.hpp:66-89) -/

/-- The contract-violation policy the header was compiled with. -/
inductive Policy where
  | throw_on_violation
  | terminate_on_violation
  | no_checking
deriving DecidableEq

/-- How a call ends: it returns a value, `contract_violation` throws
`contract_violation_error`, or `contract_violation` calls `std::terminate`. -/
inductive Outcome (α : Type) where
  | returned (a : α)
  | thrown
  | terminated
deriving DecidableEq

/-- Sequencing: the rest of a function body runs only if the first part
returned. -/
def Outcome.bind {α β : Type} (o : Outcome α) (f : α → Outcome β) : Outcome β :=
  match o with
  | .returned a => f a
  | .thrown => .thrown
  | .terminated => .terminated

/-- The call signalled a contract violation. -/
def Outcome.is_violation {α : Type} (o : Outcome α) : Bool :=
  match o with
  | .returned _ => false
  | .thrown => true
  | .terminated => true

/-- The macro `DD_SPAN_EXPECT(cond)`: `(cond ? (void)0 : contract_violation(..))`
when checking is compiled in, nothing under `DD_SPAN_NO_CONTRACT_CHECKING`. -/
def DD_SPAN_EXPECT (pol : Policy) (cond : Bool) : Outcome Unit :=
  match pol with
  | .no_checking => .returned ()
  | .throw_on_violation => if cond then .returned () else .thrown
  | .terminate_on_violation => if cond then .returned () else .terminated

/-! ## Storage (span.hpp:152-164) -/

/-- The struct `detail::span_storage<E, S>`.  The primary template has the single
member `ptr` and the constant `size = S`; the specialisation for
`S = dynamic_extent` has the run-time member `size`, kept in `dyn_size`.  In
the primary template `dyn_size` stands for no member and is always `0`. -/
structure span_storage (w : Nat) (T : ElementType) (S : Nat) where
  ptr : Ptr
  dyn_size : Nat
deriving DecidableEq

/-- Default member initialisers: `ptr = nullptr`, `size = 0`. -/
def span_storage.init_default (w : Nat) (T : ElementType) (S : Nat) : span_storage w T S :=
  ⟨nullptr, 0⟩

/-- The constructor `span_storage(E *p_ptr, std::size_t p_size)`: the primary
template ignores the count. -/
def span_storage.init (w : Nat) (T : ElementType) (S : Nat) (p_ptr : Ptr) (p_size : Nat) :
    span_storage w T S :=
  if S = dynamic_extent w then ⟨p_ptr, p_size⟩ else ⟨p_ptr, 0⟩

/-- The member `size` of the storage: `static constexpr size = S` in the
primary template, the run-time member in the specialisation. -/
def span_storage.size {w : Nat} {T : ElementType} {S : Nat} (st : span_storage w T S) : Nat :=
  if S = dynamic_extent w then st.dyn_size else S

/-! ## The span class (span.hpp:222-351) -/

/-- The class `span<ElementType, Extent>`: its only data member is `storage_`. -/
structure span (w : Nat) (T : ElementType) (Extent : Nat) where
  storage_ : span_storage w T Extent
deriving DecidableEq

section members

variable {w : Nat} {T : ElementType} {Extent : Nat}

/-- Observer `size()`. -/
def span.size (s : span w T Extent) : Nat := s.storage_.size

/-- Observer `size_bytes()`: `size() * sizeof(element_type)`. -/
def span.size_bytes (s : span w T Extent) : Nat := size_mul w s.size T.sizeof

/-- Observer `empty()`: `size() == 0`. -/
def span.empty (s : span w T Extent) : Bool := s.size == 0

/-- Observer `data()`. -/
def span.data (s : span w T Extent) : Ptr := s.storage_.ptr

end members

/-- Default constructor `span()` (declared only for `Extent == dynamic_extent`
or `Extent <= 0`). -/
def span.mk_default (w : Nat) (T : ElementType) (Extent : Nat) : span w T Extent :=
  ⟨span_storage.init_default w T Extent⟩

/-- Constructor `span(pointer ptr, size_type count)`. -/
def span.mk_ptr_count (w : Nat) (T : ElementType) (Extent : Nat) (pol : Policy)
    (ptr : Ptr) (count : Nat) : Outcome (span w T Extent) :=
  (DD_SPAN_EXPECT pol (Extent == dynamic_extent w || count == Extent)).bind fun _ =>
    .returned ⟨span_storage.init w T Extent ptr count⟩

/-- Constructor `span(pointer first, pointer last)`. -/
def span.mk_first_last (w : Nat) (T : ElementType) (Extent : Nat) (pol : Policy)
    (first last : Ptr) : Outcome (span w T Extent) :=
  (DD_SPAN_EXPECT pol
      (Extent == dynamic_extent w ||
        Ptr.diff T.sizeof last first == to_ptrdiff_t w Extent)).bind fun _ =>
    .returned ⟨span_storage.init w T Extent first (to_size_t w (Ptr.diff T.sizeof last first))⟩

/-- Extent of the result of `subspan<Offset, Count>()` on a `span<_, Extent>`:
`Count != dynamic_extent ? Count
   : (Extent != dynamic_extent ? Extent - Offset : dynamic_extent)`. -/
def subspan_extent (w Extent Offset Count : Nat) : Nat :=
  if Count ≠ dynamic_extent w then Count
  else if Extent ≠ dynamic_extent w then size_sub w Extent Offset
  else dynamic_extent w

section members

variable {w : Nat} {T : ElementType} {Extent : Nat}

/-- Member template `first<Count>()`. -/
def span.first_fixed (pol : Policy) (Count : Nat) (s : span w T Extent) :
    Outcome (span w T Count) :=
  (DD_SPAN_EXPECT pol (decide (Count ≤ s.size))).bind fun _ =>
    span.mk_ptr_count w T Count pol s.data Count

/-- Member template `last<Count>()`. -/
def span.last_fixed (pol : Policy) (Count : Nat) (s : span w T Extent) :
    Outcome (span w T Count) :=
  (DD_SPAN_EXPECT pol (decide (Count ≤ s.size))).bind fun _ =>
    span.mk_ptr_count w T Count pol (s.data.add T.sizeof (size_sub w s.size Count)) Count

/-- Member template `subspan<Offset, Count>()`; `subspan<Offset>()` is the call
with `Count = dynamic_extent`. -/
def span.subspan_fixed (pol : Policy) (Offset Count : Nat) (s : span w T Extent) :
    Outcome (span w T (subspan_extent w Extent Offset Count)) :=
  (DD_SPAN_EXPECT pol
      (decide (Offset ≤ s.size) &&
        (Count == dynamic_extent w || decide (size_add w Offset Count ≤ s.size)))).bind fun _ =>
    span.mk_ptr_count w T (subspan_extent w Extent Offset Count) pol
      (s.data.add T.sizeof Offset)
      (if Count ≠ dynamic_extent w then Count else size_sub w s.size Offset)

/-- Member `first(size_type count)`. -/
def span.first (pol : Policy) (s : span w T Extent) (count : Nat) :
    Outcome (span w T (dynamic_extent w)) :=
  (DD_SPAN_EXPECT pol (decide (count ≤ s.size))).bind fun _ =>
    span.mk_ptr_count w T (dynamic_extent w) pol s.data count

/-- Member `last(size_type count)`: `{data() + size() - count, count}`. -/
def span.last (pol : Policy) (s : span w T Extent) (count : Nat) :
    Outcome (span w T (dynamic_extent w)) :=
  (DD_SPAN_EXPECT pol (decide (count ≤ s.size))).bind fun _ =>
    span.mk_ptr_count w T (dynamic_extent w) pol
      ((s.data.add T.sizeof s.size).sub T.sizeof count) count

/-- Member `subspan(size_type off, size_type cnt)`. -/
def span.subspan (pol : Policy) (s : span w T Extent) (off cnt : Nat) :
    Outcome (span w T (dynamic_extent w)) :=
  (DD_SPAN_EXPECT pol
      (decide (off ≤ s.size) &&
        (cnt == dynamic_extent w || decide (size_add w off cnt ≤ s.size)))).bind fun _ =>
    span.mk_ptr_count w T (dynamic_extent w) pol (s.data.add T.sizeof off)
      (if cnt = dynamic_extent w then size_sub w s.size off else cnt)

/-- The call `subspan(off)`: the count takes its default `dynamic_extent`. -/
def span.subspan_from (pol : Policy) (s : span w T Extent) (off : Nat) :
    Outcome (span w T (dynamic_extent w)) :=
  s.subspan pol off (dynamic_extent w)

/-- The member `operator[](size_type idx)`: the reference `*(data() + idx)`. -/
def span.index (pol : Policy) (s : span w T Extent) (idx : Nat) : Outcome Ptr :=
  (DD_SPAN_EXPECT pol (decide (idx < s.size))).bind fun _ =>
    .returned (s.data.add T.sizeof idx)

/-- Member `front()`: the reference `*data()`. -/
def span.front (pol : Policy) (s : span w T Extent) : Outcome Ptr :=
  (DD_SPAN_EXPECT pol (!s.empty)).bind fun _ => .returned s.data

/-- Member `back()`: the reference `*(data() + size() - 1)`. -/
def span.back (pol : Policy) (s : span w T Extent) : Outcome Ptr :=
  (DD_SPAN_EXPECT pol (!s.empty)).bind fun _ =>
    .returned ((s.data.add T.sizeof s.size).sub T.sizeof 1)

end members

/-! ## Constructors constrained by `enable_if` (span.hpp:251-290)

A constructor template that does not take part in overload resolution for its
argument yields `none`: the program that calls it does not compile. -/

/-- Modelled from the spec: the trait `std::is_convertible<U (*)[], E (*)[]>` of
`<type_traits>`, which the header uses and does not define.  A pointer to an
array of `U` converts to a pointer to an array of `E` exactly when `E` is `U`
with cv-qualifiers added: same unqualified type, no qualifier dropped. -/
def is_array_ptr_convertible (U E : ElementType) : Bool :=
  U.base == E.base && (!U.is_const || E.is_const) && (!U.is_volatile || E.is_volatile)

/-- Converting constructor `span(const span<U, N> &other)`: declared when
`U (*)[]` converts to `ElementType (*)[]` and
`Extent == dynamic_extent || Extent == N`; it runs no `DD_SPAN_EXPECT`. -/
def span.mk_from_span (w : Nat) (T : ElementType) (Extent : Nat) {U : ElementType} {N : Nat}
    (other : span w U N) : Option (span w T Extent) :=
  if is_array_ptr_convertible U T && (Extent == dynamic_extent w || Extent == N) then
    some ⟨span_storage.init w T Extent other.data other.size⟩
  else none

/-- The trait `detail::is_container_element_type_compatible<C, E>` for an argument
whose `detail::data` has pointee type `pointee` (`data_is_void` when `data`
returns `void`). -/
def is_container_element_type_compatible (data_is_void : Bool) (pointee E : ElementType) :
    Bool :=
  !data_is_void && is_array_ptr_convertible pointee E

/-- An array argument, `T (&)[N]`, `std::array<T, N> &` or
`const std::array<T, N> &`, as the array constructors see it: the pointee type
of its `data()`, its length `N`, the address of its first element. -/
structure ArrayArg where
  pointee : ElementType
  N : Nat
  data : Ptr
deriving DecidableEq

/-- Array constructors (span.hpp:262-278): declared when
`Extent == dynamic_extent || N == Extent` and the element type is compatible;
they initialise `storage_(arr, N)` and run no `DD_SPAN_EXPECT`. -/
def span.mk_array (w : Nat) (T : ElementType) (Extent : Nat) (arr : ArrayArg) :
    Option (span w T Extent) :=
  if (Extent == dynamic_extent w || arr.N == Extent) &&
      is_container_element_type_compatible false arr.pointee T then
    some ⟨span_storage.init w T Extent arr.data arr.N⟩
  else none

/-- A container argument as the container constructors see it through the
reference they bind (`Container &` or `const Container &`): the traits of its
type, the pointee type of `detail::data(cont)`, and the values of
`detail::data(cont)` and `detail::size(cont)`. -/
structure ContainerArg where
  is_span : Bool
  is_std_array : Bool
  is_array : Bool
  has_size_and_data : Bool
  data_is_void : Bool
  pointee : ElementType
  data : Ptr
  size : Nat
deriving DecidableEq

/-- The trait `detail::is_container<C>`. -/
def is_container (c : ContainerArg) : Bool :=
  !c.is_span && !c.is_std_array && !c.is_array && c.has_size_and_data

/-- Container constructors `span(Container &cont)` and
`span(const Container &cont)` (span.hpp:280-290): declared when
`Extent == dynamic_extent`, the argument is a container and its element type
is compatible; they initialise `storage_(data(cont), size(cont))`. -/
def span.mk_container (w : Nat) (T : ElementType) (Extent : Nat) (cont : ContainerArg) :
    Option (span w T Extent) :=
  if Extent == dynamic_extent w && is_container cont &&
      is_container_element_type_compatible cont.data_is_void cont.pointee T then
    some ⟨span_storage.init w T Extent cont.data cont.size⟩
  else none

/-! ## Iterators (span.hpp:344-347) -/

/-- Modelled from the spec: the class `std::reverse_iterator<iterator>` of
`<iterator>`, which the header uses and does not define; it holds the iterator
`current`, and walks the same range in the reverse direction. -/
structure reverse_iterator where
  current : Ptr
deriving DecidableEq

section members

variable {w : Nat} {T : ElementType} {Extent : Nat}

/-- Member `begin()`: `data()`. -/
def span.begin (s : span w T Extent) : Ptr := s.data

/-- Member `end()`: `data() + size()`. -/
def span.end_ (s : span w T Extent) : Ptr := s.data.add T.sizeof s.size

/-- Member `rbegin()`: `reverse_iterator(end())`. -/
def span.rbegin (s : span w T Extent) : reverse_iterator := ⟨s.end_⟩

/-- Member `rend()`: `reverse_iterator(begin())`. -/
def span.rend (s : span w T Extent) : reverse_iterator := ⟨s.begin⟩

end members

/-- The loop `for (it = first; it != last; ++it) visit(*it)` over pointers to
objects of `sz` bytes: the references visited, in order.  `fuel` bounds the
number of iterations. -/
def forward_walk (sz : Nat) : Nat → Ptr → Ptr → List Ptr
  | 0, _, _ => []
  | fuel + 1, it, last =>
    if it = last then [] else it :: forward_walk sz fuel (it.add sz 1) last

/-- Modelled from the spec: the same loop over `std::reverse_iterator`, whose
operators are not part of the repository: `*it` is `*(current - 1)` and `++it`
decrements `current`, the mechanical reversal of the forward loop. -/
def reverse_walk (sz : Nat) : Nat → reverse_iterator → reverse_iterator → List Ptr
  | 0, _, _ => []
  | fuel + 1, it, last =>
    if it = last then []
    else it.current.sub sz 1 :: reverse_walk sz fuel ⟨it.current.sub sz 1⟩ last

/-! ## Byte views (span.hpp:385-394) -/

/-- The type `byte`: `std::byte` or `unsigned char`, one byte. -/
def byte_t : ElementType := ⟨2, 1, false, false⟩

/-- The type `const byte`. -/
def const_byte_t : ElementType := ⟨2, 1, true, false⟩

/-- A call made inside a `noexcept` function: an exception that would leave it
calls `std::terminate`. -/
def Outcome.noexcept {α : Type} (o : Outcome α) : Outcome α :=
  match o with
  | .returned a => .returned a
  | .thrown => .terminated
  | .terminated => .terminated

/-- Extent of the byte view of a `span<ET, E>`:
`(E == dynamic_extent) ? dynamic_extent : sizeof(ET) * E`. -/
def bytes_extent (w : Nat) (T : ElementType) (E : Nat) : Nat :=
  if E = dynamic_extent w then dynamic_extent w else size_mul w T.sizeof E

/-- Free function `as_bytes(span<ET, E> s) noexcept`:
`{reinterpret_cast<const byte *>(s.data()), s.size_bytes()}`. -/
def as_bytes {w : Nat} {T : ElementType} {E : Nat} (pol : Policy) (s : span w T E) :
    Outcome (span w const_byte_t (bytes_extent w T E)) :=
  (span.mk_ptr_count w const_byte_t (bytes_extent w T E) pol s.data s.size_bytes).noexcept

/-- Free function `as_writable_bytes(span<ET, E> s) noexcept`, declared only when
`ET` is not const: `{reinterpret_cast<byte *>(s.data()), s.size_bytes()}`. -/
def as_writable_bytes {w : Nat} {T : ElementType} {E : Nat} (pol : Policy) (s : span w T E) :
    Option (Outcome (span w byte_t (bytes_extent w T E))) :=
  if T.is_const then none
  else some (span.mk_ptr_count w byte_t (bytes_extent w T E) pol s.data s.size_bytes).noexcept

/-! ## Memory

The bytes of the referent.  A view owns no memory; reading and writing happen
through the references its element access returns. -/

/-- Byte-addressed memory: the byte stored at each address. -/
def Memory : Type := Int → Nat

/-- The object representation read through a reference to an object of `n`
bytes at `p`: the bytes at `p, p + 1, .., p + n - 1`. -/
def Memory.load (m : Memory) (n : Nat) (p : Ptr) : List Nat :=
  (List.range n).map fun (j : Nat) => m (p.addr + (j : Int))

/-- Assignment through a reference to the object at `p`: its bytes become
`bytes`, every other byte is unchanged. -/
def Memory.store (m : Memory) (p : Ptr) (bytes : List Nat) : Memory :=
  fun a =>
    if p.addr ≤ a ∧ a < p.addr + (bytes.length : Int) then bytes.getD (a - p.addr).toNat 0
    else m a

/-- Reading an object of `n` bytes through the result of an element access. -/
def Memory.load_through (m : Memory) (n : Nat) (r : Outcome Ptr) : Option (List Nat) :=
  match r with
  | .returned p => some (m.load n p)
  | .thrown => none
  | .terminated => none

/-- Assignment through the result of an element access; nothing is written when
the access did not return. -/
def Memory.store_through (m : Memory) (r : Outcome Ptr) (bytes : List Nat) : Memory :=
  match r with
  | .returned p => m.store p bytes
  | .thrown => m
  | .terminated => m

/-- The sub-view `s` shares its referent with `v`, element `i` of `s` being
element `o + i` of `v`: for every `i < s.size()`, after assigning the object
representation `x` through `s[i]`, reading `v[o + i]` gives `x` and reading any
other element `v[j]` gives what it gave before; and after assigning `x`
through `v[o + i]`, reading `s[i]` gives `x`. -/
def writes_shared {w : Nat} {T : ElementType} {E E2 : Nat} (pol : Policy) (m : Memory)
    (x : List Nat) (v : span w T E) (s : span w T E2) (o : Nat) : Prop :=
  ∀ i, i < s.size →
    (m.store_through (s.index pol i) x).load_through T.sizeof (v.index pol (o + i)) = some x ∧
    (∀ j, j < v.size → j ≠ o + i →
      (m.store_through (s.index pol i) x).load_through T.sizeof (v.index pol j)
        = m.load_through T.sizeof (v.index pol j)) ∧
    (m.store_through (v.index pol (o + i)) x).load_through T.sizeof (s.index pol i) = some x

/-! ## Default construction (span.hpp:242-243) -/

/-- The condition under which the default constructor is declared:
`E == dynamic_extent || E <= 0`. -/
def span.default_ctor_declared (w Extent : Nat) : Bool :=
  Extent == dynamic_extent w || decide (Extent ≤ 0)

/-- The expression `span<ElementType, Extent>()`: the default constructor when it
is declared, no program otherwise. -/
def span.construct_default (w : Nat) (T : ElementType) (Extent : Nat) :
    Option (span w T Extent) :=
  if span.default_ctor_declared w Extent then some (span.mk_default w T Extent) else none

/-! ## Tuple protocol (span.hpp:396-410) -/

/-- Free function `get<I>(span<ET, E> s)`: `return s[I];`. -/
def get {w : Nat} {T : ElementType} {E : Nat} (pol : Policy) (I : Nat) (s : span w T E) :
    Outcome Ptr :=
  s.index pol I

/-- The specialisations of `std::tuple_size` for spans: `integral_constant<size_t, E>`
for a fixed extent; for `dynamic_extent` the specialisation is declared and not
defined, an incomplete type (`none`). -/
def tuple_size (w E : Nat) : Option Nat :=
  if E = dynamic_extent w then none else some E

/-- The specialisation of `std::tuple_element<I, span<ET, E>>`: its
`static_assert(E != dynamic_extent && I < E)` and its member `type = ET`. -/
def tuple_element (w : Nat) (T : ElementType) (E I : Nat) : Option ElementType :=
  if E ≠ dynamic_extent w ∧ I < E then some T else none

/-- Modelled from the spec: the structured binding declaration
`auto &&[a0, .., ak] = s`, a language rule the header only supplies the hooks
for.  When `std::tuple_size` of the span type is complete, there are
`tuple_size` bindings and binding `i` is the reference `get<i>(s)`; when it is
incomplete the declaration is ill-formed (the span has a private member). -/
def structured_binding {w : Nat} {T : ElementType} {E : Nat} (pol : Policy) (s : span w T E) :
    Option (List (Outcome Ptr)) :=
  match tuple_size w E with
  | none => none
  | some n => some ((List.range n).map fun (i : Nat) => get pol i s)

/-! ## Free makers (span.hpp:365-383) -/

/-- Overload `make_span(span<ET, E> s)`: `return s;`. -/
def make_span_span {w : Nat} {T : ElementType} {E : Nat} (s : span w T E) : span w T E := s

/-- Overloads `make_span(T (&arr)[N])`, `make_span(std::array<T, N> &arr)` and
`make_span(const std::array<T, N> &arr)`: `return {arr};` into a span of the
array's pointee type and length. -/
def make_span_array (w : Nat) (arr : ArrayArg) : Option (span w arr.pointee arr.N) :=
  span.mk_array w arr.pointee arr.N arr

/-- Overload `make_span(Container &cont)`: `return {cont};` into a
run-time-length span of `remove_reference<decltype(*data(cont))>`. -/
def make_span_container (w : Nat) (cont : ContainerArg) :
    Option (span w cont.pointee (dynamic_extent w)) :=
  span.mk_container w cont.pointee (dynamic_extent w) cont

/-- The type `const value_type`. -/
def ElementType.add_const (T : ElementType) : ElementType :=
  ⟨T.base, T.sizeof, true, T.is_volatile⟩

/-- Overload `make_span(const Container &cont)`: `return {cont};` into a
run-time-length span of `const typename Container::value_type`. -/
def make_span_const_container (w : Nat) (value_type : ElementType) (cont : ContainerArg) :
    Option (span w value_type.add_const (dynamic_extent w)) :=
  span.mk_container w value_type.add_const (dynamic_extent w) cont

/-! ## Selection of the contract policy (span.hpp:66-89) -/

/-- The macros that decide the policy, as the translation unit defines them
before including the header. -/
structure BuildFlags where
  throw_on_contract_violation : Bool
  terminate_on_contract_violation : Bool
  no_contract_checking : Bool
  ndebug : Bool
  have_cpp14 : Bool
deriving DecidableEq

/-- The block "Default contract checking" (span.hpp:66-73): when none of the
three policy macros is defined, it defines `DD_SPAN_NO_CONTRACT_CHECKING` if
`NDEBUG` is defined or `DD_SPAN_HAVE_CPP14` is not, and
`DD_SPAN_TERMINATE_ON_CONTRACT_VIOLATION` otherwise. -/
def BuildFlags.after_default (f : BuildFlags) : BuildFlags :=
  if !f.throw_on_contract_violation && !f.terminate_on_contract_violation &&
      !f.no_contract_checking then
    if f.ndebug || !f.have_cpp14 then
      ⟨f.throw_on_contract_violation, f.terminate_on_contract_violation, true, f.ndebug,
        f.have_cpp14⟩
    else
      ⟨f.throw_on_contract_violation, true, f.no_contract_checking, f.ndebug, f.have_cpp14⟩
  else f

/-- The function `contract_violation` (span.hpp:75-82), for the macros in effect
after the default block: it throws under the throw macro, else terminates
under the terminate macro, else it is not defined (`none`). -/
def contract_violation (g : BuildFlags) : Option (Outcome Unit) :=
  if g.throw_on_contract_violation then some .thrown
  else if g.terminate_on_contract_violation then some .terminated
  else none

/-- The expansion of `DD_SPAN_EXPECT(cond)` (span.hpp:84-89) for a translation
unit with flags `f`: `(cond ? (void)0 : contract_violation(..))` unless
`DD_SPAN_NO_CONTRACT_CHECKING` is in effect, nothing otherwise.  `none` would
be a call of an undefined `contract_violation`. -/
def DD_SPAN_EXPECT_expansion (f : BuildFlags) (cond : Bool) : Option (Outcome Unit) :=
  if !f.after_default.no_contract_checking then
    if cond then some (.returned ()) else contract_violation f.after_default
  else some (.returned ())

/-- The policy a translation unit with flags `f` gets. -/
def selected_policy (f : BuildFlags) : Policy :=
  if f.after_default.no_contract_checking then .no_checking
  else if f.after_default.throw_on_contract_violation then .throw_on_violation
  else .terminate_on_violation

/-! ## Comparing calls -/

/-- Two calls agree: both signal a contract violation, or both return and the
views they return have equal `data()` and equal `size()`. -/
def same_outcome {w : Nat} {T : ElementType} {X Y : Nat} (a : Outcome (span w T X))
    (b : Outcome (span w T Y)) : Prop :=
  (a.is_violation = true ∧ b.is_violation = true) ∨
  ∃ r s, a = .returned r ∧ b = .returned s ∧ r.data = s.data ∧ r.size = s.size

/-! ## Concrete data used by the worked instances -/

/-- The type `int`, four bytes. -/
def int_t : ElementType := ⟨0, 4, false, false⟩

/-- The type `char`, one byte. -/
def char_t : ElementType := ⟨1, 1, false, false⟩

/-- A run-time-length `span<int>` of five elements at address 4096. -/
def five_ints : span 64 int_t (dynamic_extent 64) := ⟨⟨⟨4096⟩, 5⟩⟩

/-- A `span<int, 5>` at address 4096. -/
def five_ints_fixed : span 64 int_t 5 := ⟨⟨⟨4096⟩, 0⟩⟩

/-- The type `const int`. -/
def const_int_t : ElementType := ⟨0, 4, true, false⟩

/-- The type `float`, unrelated to `int`. -/
def float_t : ElementType := ⟨3, 4, false, false⟩

/-- A `std::vector<int>` of three elements at address 8192, seen through
`std::vector<int> &`. -/
def vec_int_ref : ContainerArg := ⟨false, false, false, true, false, int_t, ⟨8192⟩, 3⟩

/-- The same vector seen through `const std::vector<int> &`: `data()` returns
`const int *`. -/
def vec_int_const_ref : ContainerArg := ⟨false, false, false, true, false, const_int_t, ⟨8192⟩, 3⟩

/-- A `std::deque<int>`: it has no `data()`. -/
def deque_int_ref : ContainerArg := ⟨false, false, false, false, false, int_t, ⟨0⟩, 0⟩

/-- Memory holding the array `int arr[6] = {0, 1, 2, 3, 4, 5}` at address 4096,
each `int` stored low byte first, zero elsewhere. -/
def six_ints_memory : Memory := fun a =>
  if 4096 ≤ a ∧ a < 4120 ∧ (a - 4096) % 4 = 0 then ((a - 4096) / 4).toNat else 0

/-- The view `span<int>(arr, 6)` over that array. -/
def six_ints : span 64 int_t (dynamic_extent 64) := ⟨⟨⟨4096⟩, 6⟩⟩

/-- The type `const char`. -/
def const_char_t : ElementType := ⟨1, 1, true, false⟩

/-- The array `int arr[3]` at address 4096. -/
def three_ints_array : ArrayArg := ⟨int_t, 3, ⟨4096⟩⟩

/-- The view `span<int, 3>` over that array. -/
def three_ints_fixed : span 64 int_t 3 := ⟨⟨⟨4096⟩, 0⟩⟩

/-- A `std::initializer_list<int>` of three elements at address 12288:
`detail::data` returns `const int *`. -/
def ilist_int : ContainerArg := ⟨false, false, false, true, false, const_int_t, ⟨12288⟩, 3⟩

/-- A `std::string_view` over `"hello"` at address 16384: `data()` returns
`const char *`. -/
def string_view_hello : ContainerArg :=
  ⟨false, false, false, true, false, const_char_t, ⟨16384⟩, 5⟩

theorem expect_true (pol : Policy) : DD_SPAN_EXPECT pol true = .returned () := by
  cases pol <;> rfl

theorem expect_of_true (pol : Policy) (c : Bool) (h : c = true) :
    DD_SPAN_EXPECT pol c = .returned () := by
  subst h; exact expect_true pol

theorem bind_expect_of_true {β : Type} (pol : Policy) (c : Bool) (h : c = true)
    (f : Unit → Outcome β) : (DD_SPAN_EXPECT pol c).bind f = f () := by
  rw [expect_of_true pol c h]; rfl

theorem bind_expect_violation {β : Type} (pol : Policy) (hpol : pol ≠ .no_checking) (c : Bool)
    (f : Unit → Outcome β) :
    ((DD_SPAN_EXPECT pol c).bind f).is_violation = (!c || (f ()).is_violation) := by
  cases pol <;> cases c <;> simp_all [DD_SPAN_EXPECT, Outcome.bind, Outcome.is_violation]

theorem mk_ptr_count_dynamic (w : Nat) (T : ElementType) (pol : Policy) (p : Ptr) (n : Nat) :
    span.mk_ptr_count w T (dynamic_extent w) pol p n = .returned ⟨⟨p, n⟩⟩ := by
  unfold span.mk_ptr_count
  rw [bind_expect_of_true pol _ (by simp)]
  simp [span_storage.init]

theorem mk_ptr_count_same (w : Nat) (T : ElementType) (N : Nat) (pol : Policy) (p : Ptr) :
    span.mk_ptr_count w T N pol p N = .returned ⟨span_storage.init w T N p N⟩ := by
  unfold span.mk_ptr_count
  rw [bind_expect_of_true pol _ (by simp)]

theorem size_init_same (w : Nat) (T : ElementType) (N : Nat) (p : Ptr) :
    (span_storage.init w T N p N).size = N := by
  unfold span_storage.init span_storage.size
  split <;> simp_all

theorem ptr_init (w : Nat) (T : ElementType) (N : Nat) (p : Ptr) (n : Nat) :
    (span_storage.init w T N p n).ptr = p := by
  unfold span_storage.init
  split <;> rfl

theorem index_of_lt {w : Nat} {T : ElementType} {E : Nat} (pol : Policy) (s : span w T E)
    (i : Nat) (h : i < s.size) : s.index pol i = .returned (s.data.add T.sizeof i) := by
  unfold span.index
  rw [bind_expect_of_true pol _ (by simpa using h)]

theorem Ptr.add_add (sz : Nat) (p : Ptr) (a b : Nat) :
    (p.add sz a).add sz b = p.add sz (a + b) := by
  simp only [Ptr.add, Ptr.mk.injEq]
  push_cast; ring

theorem Ptr.add_sub (sz : Nat) (p : Ptr) (a b : Nat) (h : b ≤ a) :
    (p.add sz a).sub sz b = p.add sz (a - b) := by
  simp only [Ptr.add, Ptr.sub, Ptr.mk.injEq]
  push_cast [Nat.cast_sub h]; ring

theorem Ptr.add_zero (sz : Nat) (p : Ptr) : p.add sz 0 = p := by
  simp [Ptr.add]

theorem size_sub_of_le (w a b : Nat) (h : b ≤ a) (ha : a < 2 ^ w) : size_sub w a b = a - b := by
  unfold size_sub
  have : a + 2 ^ w - b = (a - b) + 2 ^ w := by omega
  rw [this, Nat.add_mod_right, Nat.mod_eq_of_lt (by omega)]

theorem size_add_le (w a b : Nat) : size_add w a b ≤ a + b := Nat.mod_le _ _

theorem to_size_t_neg_two (w : Nat) : to_size_t w (-2) = 2 ^ w - 2 := by
  unfold to_size_t
  rcases Nat.lt_or_ge w 1 with h | h
  · have : w = 0 := by omega
    subst this; decide
  · have h2 : (2 : Int) ≤ (2 : Int) ^ w := by
      have : (2 : Int) ^ 1 ≤ (2 : Int) ^ w := pow_le_pow_right₀ (by norm_num) h
      simpa using this
    have e : (-2 : Int) = ((2 : Int) ^ w - 2) + (-1) * (2 : Int) ^ w := by ring
    rw [e, Int.add_mul_emod_self, Int.emod_eq_of_lt (by omega) (by omega)]
    have h2n : 2 ≤ 2 ^ w := by exact_mod_cast h2
    have e2 : (2 : Int) ^ w - 2 = ((2 ^ w - 2 : Nat) : Int) := by
      push_cast [Nat.cast_sub h2n]; ring
    rw [e2, Int.toNat_ofNat]

theorem mk_ptr_count_ok (w : Nat) (T : ElementType) (X : Nat) (pol : Policy) (p : Ptr) (n : Nat)
    (h : X = dynamic_extent w ∨ n = X) :
    ∃ r : span w T X, span.mk_ptr_count w T X pol p n = .returned r ∧ r.size = n ∧ r.data = p := by
  refine ⟨⟨span_storage.init w T X p n⟩, ?_, ?_, ptr_init w T X p n⟩
  · unfold span.mk_ptr_count
    rw [bind_expect_of_true pol _ (by rcases h with h | h <;> simp [h])]
  · unfold span.size span_storage.init span_storage.size
    rcases h with h | h
    · simp [h]
    · split <;> simp_all

theorem to_size_t_cast (w : Nat) (d : Int) (hlo : -(2 : Int) ^ w ≤ d) (hhi : d < (2 : Int) ^ w) :
    (to_size_t w d : Int) = if 0 ≤ d then d else d + (2 : Int) ^ w := by
  unfold to_size_t
  have hpos : (0 : Int) < (2 : Int) ^ w := by positivity
  rw [Int.toNat_of_nonneg (Int.emod_nonneg _ (by omega))]
  split
  · exact Int.emod_eq_of_lt (by omega) hhi
  · have e : d = (d + (2 : Int) ^ w) + (-1) * (2 : Int) ^ w := by ring
    conv_lhs => rw [e]
    rw [Int.add_mul_emod_self, Int.emod_eq_of_lt (by omega) (by omega)]

theorem subspan_violation_iff {w : Nat} {T : ElementType} {E : Nat} (pol : Policy)
    (hpol : pol ≠ .no_checking) (v : span w T E) (o c : Nat) :
    (v.subspan pol o c).is_violation = false ↔
      o ≤ v.size ∧ (c = dynamic_extent w ∨ size_add w o c ≤ v.size) := by
  unfold span.subspan
  rw [bind_expect_violation pol hpol, mk_ptr_count_dynamic]
  simp only [Outcome.is_violation, Bool.or_false, Bool.not_eq_false_eq_eq_true, Bool.and_eq_true,
    Bool.or_eq_true, decide_eq_true_eq, beq_iff_eq]

theorem first_last_fixed_violation_iff {w : Nat} {T : ElementType} {E : Nat} (pol : Policy)
    (hpol : pol ≠ .no_checking) (v : span w T E) (N : Nat) :
    ((v.first_fixed pol N).is_violation = true ↔ v.size < N) ∧
    ((v.last_fixed pol N).is_violation = true ↔ v.size < N) := by
  constructor
  · unfold span.first_fixed
    rw [bind_expect_violation pol hpol, mk_ptr_count_same]
    simp [Outcome.is_violation]
  · unfold span.last_fixed
    rw [bind_expect_violation pol hpol, mk_ptr_count_same]
    simp [Outcome.is_violation]

theorem subspan_fixed_returns_of_check {w : Nat} {T : ElementType} {E : Nat} (pol : Policy)
    (v : span w T E) (O C : Nat)
    (h : O ≤ v.size ∧ (C = dynamic_extent w ∨ size_add w O C ≤ v.size)) :
    (v.subspan_fixed pol O C).is_violation = false := by
  obtain ⟨hO, hC⟩ := h
  have hok : subspan_extent w E O C = dynamic_extent w ∨
      (if C ≠ dynamic_extent w then C else size_sub w v.size O) = subspan_extent w E O C := by
    unfold subspan_extent
    by_cases hc : C = dynamic_extent w
    · by_cases hE : E = dynamic_extent w
      · left; simp [hc, hE]
      · right
        have : v.size = E := by simp [span.size, span_storage.size, hE]
        simp [hc, hE, this]
    · right; simp [hc]
  obtain ⟨r, h1, _, _⟩ := mk_ptr_count_ok w T (subspan_extent w E O C) pol
    (v.data.add T.sizeof O) (if C ≠ dynamic_extent w then C else size_sub w v.size O) hok
  unfold span.subspan_fixed
  rw [bind_expect_of_true pol _ (by
    rcases hC with hC | hC
    · simp [hO, hC]
    · simp [hO, hC]), h1]
  rfl

theorem subspan_fixed_violation_iff {w : Nat} {T : ElementType} {E : Nat} (pol : Policy)
    (hpol : pol ≠ .no_checking) (v : span w T E) (O C : Nat) :
    (v.subspan_fixed pol O C).is_violation = false ↔
      O ≤ v.size ∧ (C = dynamic_extent w ∨ size_add w O C ≤ v.size) := by
  constructor
  · intro h
    unfold span.subspan_fixed at h
    rw [bind_expect_violation pol hpol] at h
    simp only [Bool.or_eq_false_iff, Bool.not_eq_false_eq_eq_true, Bool.and_eq_true,
      Bool.or_eq_true, decide_eq_true_eq, beq_iff_eq] at h
    exact h.1
  · exact subspan_fixed_returns_of_check pol v O C

theorem size_of_fixed {w : Nat} {T : ElementType} {E : Nat} (hE : E ≠ dynamic_extent w)
    (v : span w T E) : v.size = E := by
  simp [span.size, span_storage.size, hE]

theorem size_of_dynamic {w : Nat} {T : ElementType} (p : Ptr) (n : Nat) :
    (⟨⟨p, n⟩⟩ : span w T (dynamic_extent w)).size = n := by
  simp [span.size, span_storage.size]

theorem two_pow_pred (w : Nat) (hw : 0 < w) : (2 : Int) ^ w = 2 * (2 : Int) ^ (w - 1) := by
  have : w = (w - 1) + 1 := by omega
  conv_lhs => rw [this]
  ring

theorem to_ptrdiff_t_cast (w N : Nat) :
    to_ptrdiff_t w N
      = if (N : Int) < (2 : Int) ^ (w - 1) then (N : Int) else (N : Int) - (2 : Int) ^ w := by
  unfold to_ptrdiff_t
  by_cases h : N < 2 ^ (w - 1)
  · have h2 : (N : Int) < (2 : Int) ^ (w - 1) := by exact_mod_cast h
    rw [if_pos h, if_pos h2]
  · have h2 : ¬ (N : Int) < (2 : Int) ^ (w - 1) := by
      intro h3
      exact h (by exact_mod_cast h3)
    rw [if_neg h, if_neg h2]

theorem range_check_iff (w N : Nat) (d : Int) (hw : 0 < w) (hNw : N < 2 ^ w)
    (hlo : -(2 : Int) ^ (w - 1) ≤ d) (hhi : d < (2 : Int) ^ (w - 1)) :
    d = to_ptrdiff_t w N ↔ to_size_t w d = N := by
  have hpow := two_pow_pred w hw
  have hNi : (N : Int) < (2 : Int) ^ w := by exact_mod_cast hNw
  have hcount := to_size_t_cast w d (by omega) (by omega)
  rw [to_ptrdiff_t_cast]
  constructor
  · intro h
    have : (to_size_t w d : Int) = (N : Int) := by
      rw [hcount]
      split_ifs at h ⊢ <;> omega
    exact_mod_cast this
  · intro h
    have h2 : (to_size_t w d : Int) = (N : Int) := by exact_mod_cast h
    rw [hcount] at h2
    split_ifs at h2 ⊢ <;> omega

theorem range_count_exact (w N : Nat) (d : Int) (hw : 0 < w)
    (hlo : -(2 : Int) ^ (w - 1) ≤ d) (hhi : d < (2 : Int) ^ (w - 1)) (h0 : 0 ≤ d) :
    to_size_t w d = N ↔ d = (N : Int) := by
  have hpow := two_pow_pred w hw
  have hcount := to_size_t_cast w d (by omega) (by omega)
  rw [if_pos h0] at hcount
  constructor
  · intro h
    rw [← hcount, h]
  · intro h
    have : (to_size_t w d : Int) = (N : Int) := by rw [hcount, h]
    exact_mod_cast this

theorem is_violation_returned {α : Type} (o : Outcome α) (a : α) (h : o = .returned a) :
    o.is_violation = false := by
  subst h; rfl

theorem mk_from_span_some {w : Nat} {T U : ElementType} {E N : Nat} (other : span w U N)
    (v : span w T E) (h : span.mk_from_span w T E other = some v) :
    is_array_ptr_convertible U T = true ∧ (E = dynamic_extent w ∨ E = N) ∧
    v = ⟨span_storage.init w T E other.data other.size⟩ := by
  unfold span.mk_from_span at h
  split at h
  · rename_i hc
    simp only [Bool.and_eq_true, Bool.or_eq_true, beq_iff_eq] at hc
    exact ⟨hc.1, hc.2, by simpa using h.symm⟩
  · simp at h

theorem noexcept_returned {α : Type} (a : α) :
    (Outcome.returned a).noexcept = .returned a := rfl

theorem size_bytes_exact {w : Nat} {T : ElementType} {E : Nat} (v : span w T E)
    (hv : v.size * T.sizeof < 2 ^ w) : v.size_bytes = v.size * T.sizeof := by
  unfold span.size_bytes size_mul
  exact Nat.mod_eq_of_lt hv

theorem bytes_ctor_ok {w : Nat} {T : ElementType} {E : Nat} (B : ElementType) (pol : Policy)
    (v : span w T E) :
    ∃ b : span w B (bytes_extent w T E),
      span.mk_ptr_count w B (bytes_extent w T E) pol v.data v.size_bytes = .returned b ∧
      b.size = v.size_bytes ∧ b.data = v.data := by
  apply mk_ptr_count_ok
  unfold bytes_extent
  by_cases hE : E = dynamic_extent w
  · left; simp [hE]
  · right
    rw [if_neg hE]
    unfold span.size_bytes size_mul
    rw [size_of_fixed hE, Nat.mul_comm]

theorem first_returns {w : Nat} {T : ElementType} {E : Nat} (pol : Policy) (v : span w T E)
    (k : Nat) (hk : k ≤ v.size) : v.first pol k = .returned ⟨⟨v.data, k⟩⟩ := by
  unfold span.first
  rw [bind_expect_of_true pol _ (by simpa using hk), mk_ptr_count_dynamic]

theorem last_returns {w : Nat} {T : ElementType} {E : Nat} (pol : Policy) (v : span w T E)
    (k : Nat) (hk : k ≤ v.size) :
    v.last pol k = .returned ⟨⟨v.data.add T.sizeof (v.size - k), k⟩⟩ := by
  unfold span.last
  rw [bind_expect_of_true pol _ (by simpa using hk), mk_ptr_count_dynamic,
    Ptr.add_sub _ _ _ _ hk]

theorem subspan_returns {w : Nat} {T : ElementType} {E : Nat} (pol : Policy) (v : span w T E)
    (o c : Nat) (hc : c ≠ dynamic_extent w) (hoc : o + c ≤ v.size) :
    v.subspan pol o c = .returned ⟨⟨v.data.add T.sizeof o, c⟩⟩ := by
  unfold span.subspan
  have hsum : size_add w o c ≤ v.size := Nat.le_trans (size_add_le w o c) hoc
  have ho : o ≤ v.size := by omega
  rw [bind_expect_of_true pol _ (by simp [ho, hsum]), mk_ptr_count_dynamic, if_neg hc]

theorem load_store_same (m : Memory) (p : Ptr) (x : List Nat) :
    (m.store p x).load x.length p = x := by
  apply List.ext_getElem
  · simp [Memory.load]
  · intro j h1 h2
    simp only [Memory.load, Memory.store, List.getElem_map, List.getElem_range]
    have hj : (j : Int) < (x.length : Int) := by exact_mod_cast h2
    rw [if_pos ⟨by omega, by omega⟩]
    have : (p.addr + (j : Int) - p.addr).toNat = j := by omega
    rw [this, List.getD_eq_getElem _ _ h2]

theorem load_store_disjoint (m : Memory) (p q : Ptr) (n : Nat) (x : List Nat)
    (h : p.addr + (n : Int) ≤ q.addr ∨ q.addr + (x.length : Int) ≤ p.addr) :
    (m.store q x).load n p = m.load n p := by
  unfold Memory.load
  apply List.map_congr_left
  intro j hj
  have hjn : (j : Int) < (n : Int) := by exact_mod_cast List.mem_range.mp hj
  unfold Memory.store
  rw [if_neg]
  intro hc
  omega

theorem elements_disjoint (sz : Nat) (p : Ptr) (a b : Nat) (hab : a ≠ b) :
    (p.add sz a).addr + (sz : Int) ≤ (p.add sz b).addr ∨
    (p.add sz b).addr + (sz : Int) ≤ (p.add sz a).addr := by
  simp only [Ptr.add]
  rcases Nat.lt_or_gt_of_ne hab with h | h
  · left
    have : sz * (a + 1) ≤ sz * b := Nat.mul_le_mul_left sz h
    have h2 : (sz : Int) * ((a : Int) + 1) ≤ (sz : Int) * (b : Int) := by exact_mod_cast this
    linarith
  · right
    have : sz * (b + 1) ≤ sz * a := Nat.mul_le_mul_left sz h
    have h2 : (sz : Int) * ((b : Int) + 1) ≤ (sz : Int) * (a : Int) := by exact_mod_cast this
    linarith

theorem writes_shared_of {w : Nat} {T : ElementType} {E E2 : Nat} (pol : Policy) (m : Memory)
    (x : List Nat) (hx : x.length = T.sizeof) (v : span w T E) (s : span w T E2) (o : Nat)
    (hdata : s.data = v.data.add T.sizeof o) (hsize : o + s.size ≤ v.size) :
    writes_shared pol m x v s o := by
  intro i hi
  have hs : s.index pol i = .returned (v.data.add T.sizeof (o + i)) := by
    rw [index_of_lt pol s i hi, hdata, Ptr.add_add]
  have hv : v.index pol (o + i) = .returned (v.data.add T.sizeof (o + i)) :=
    index_of_lt pol v _ (by omega)
  have hsame : (m.store (v.data.add T.sizeof (o + i)) x).load T.sizeof
      (v.data.add T.sizeof (o + i)) = x := by
    rw [← hx]
    exact load_store_same m _ x
  refine ⟨?_, ?_, ?_⟩
  · rw [hs, hv]
    simp only [Memory.store_through, Memory.load_through, hsame]
  · intro j hj hne
    rw [hs, index_of_lt pol v j hj]
    simp only [Memory.store_through, Memory.load_through]
    rw [load_store_disjoint]
    rw [hx]
    exact elements_disjoint T.sizeof v.data j (o + i) hne
  · rw [hs, hv]
    simp only [Memory.store_through, Memory.load_through, hsame]

theorem forward_walk_eq (sz : Nat) (hsz : 0 < sz) (n : Nat) :
    ∀ (fuel : Nat) (p : Ptr), n ≤ fuel →
      forward_walk sz fuel p (p.add sz n) = (List.range n).map (fun i => p.add sz i) := by
  induction n with
  | zero =>
    intro fuel p _
    cases fuel with
    | zero => rfl
    | succ f => simp [forward_walk, Ptr.add_zero]
  | succ n ih =>
    intro fuel p hf
    cases fuel with
    | zero => omega
    | succ f =>
      have hne : p ≠ p.add sz (n + 1) := by
        intro h
        have h2 := congrArg Ptr.addr h
        simp only [Ptr.add] at h2
        have h3 : (0 : Int) < (sz : Int) * ((n + 1 : Nat) : Int) := by positivity
        omega
      have hstep : p.add sz (n + 1) = (p.add sz 1).add sz n := by
        rw [Ptr.add_add, Nat.add_comm]
      rw [forward_walk, if_neg hne, hstep, ih f (p.add sz 1) (by omega), List.range_succ_eq_map]
      simp [Ptr.add_add, Ptr.add_zero, Function.comp_def, Nat.add_comm]

theorem reverse_walk_eq (sz : Nat) (hsz : 0 < sz) (p : Ptr) (n : Nat) :
    ∀ (fuel : Nat), n ≤ fuel →
      reverse_walk sz fuel ⟨p.add sz n⟩ ⟨p⟩
        = ((List.range n).map (fun i => p.add sz i)).reverse := by
  induction n with
  | zero =>
    intro fuel _
    cases fuel with
    | zero => rfl
    | succ f => simp [reverse_walk, Ptr.add_zero]
  | succ n ih =>
    intro fuel hf
    cases fuel with
    | zero => omega
    | succ f =>
      have hne : (⟨p.add sz (n + 1)⟩ : reverse_iterator) ≠ ⟨p⟩ := by
        intro h
        have h2 := congrArg (fun it => it.current.addr) h
        simp only [Ptr.add] at h2
        have h3 : (0 : Int) < (sz : Int) * ((n + 1 : Nat) : Int) := by positivity
        omega
      have hstep : (p.add sz (n + 1)).sub sz 1 = p.add sz n := by
        rw [Ptr.add_sub _ _ _ _ (by omega)]
        rfl
      rw [reverse_walk, if_neg hne]
      simp only [hstep]
      rw [ih f (by omega), List.range_succ]
      simp

theorem mk_array_some (w : Nat) (T : ElementType) (Extent : Nat) (arr : ArrayArg)
    (hE : Extent = dynamic_extent w ∨ arr.N = Extent)
    (hc : is_array_ptr_convertible arr.pointee T = true) :
    ∃ v : span w T Extent,
      span.mk_array w T Extent arr = some v ∧ v.size = arr.N ∧ v.data = arr.data := by
  refine ⟨⟨span_storage.init w T Extent arr.data arr.N⟩, ?_, ?_, ptr_init _ _ _ _ _⟩
  · unfold span.mk_array
    rw [if_pos]
    simp only [Bool.and_eq_true, Bool.or_eq_true, beq_iff_eq, is_container_element_type_compatible,
      Bool.not_false, hc, and_self, and_true]
    exact hE
  · unfold span.size span_storage.init span_storage.size
    rcases hE with h | h
    · simp [h]
    · split <;> simp_all

theorem mk_container_some (w : Nat) (T : ElementType) (c : ContainerArg)
    (hcont : is_container c = true) (hvoid : c.data_is_void = false)
    (hc : is_array_ptr_convertible c.pointee T = true) :
    span.mk_container w T (dynamic_extent w) c = some ⟨⟨c.data, c.size⟩⟩ := by
  unfold span.mk_container
  rw [if_pos]
  · simp [span_storage.init]
  · simp [is_container_element_type_compatible, hcont, hvoid, hc]

theorem is_array_ptr_convertible_refl (T : ElementType) :
    is_array_ptr_convertible T T = true := by
  unfold is_array_ptr_convertible
  cases T.is_const <;> cases T.is_volatile <;> simp

theorem expect_bind_skip {β : Type} (pol : Policy) (c : Bool) (f : Unit → Outcome β)
    (h : c = true ∨ pol = .no_checking) : (DD_SPAN_EXPECT pol c).bind f = f () := by
  rcases h with h | h
  · exact bind_expect_of_true pol c h f
  · subst h; rfl

theorem expect_bind_fail {β : Type} (pol : Policy) (c : Bool) (f : Unit → Outcome β)
    (hc : c = false) (hpol : pol ≠ .no_checking) :
    ((DD_SPAN_EXPECT pol c).bind f).is_violation = true := by
  rw [bind_expect_violation pol hpol, hc]
  rfl

theorem check_cases (pol : Policy) (c : Bool) :
    (c = true ∨ pol = .no_checking) ∨ (c = false ∧ pol ≠ .no_checking) := by
  cases c <;> cases pol <;> simp

theorem subspan_fixed_ctor_ok {w : Nat} {T : ElementType} {E : Nat} (v : span w T E)
    (O C : Nat) :
    subspan_extent w E O C = dynamic_extent w ∨
      (if C ≠ dynamic_extent w then C else size_sub w v.size O) = subspan_extent w E O C := by
  unfold subspan_extent
  by_cases hc : C = dynamic_extent w
  · by_cases hE : E = dynamic_extent w
    · left; simp [hc, hE]
    · right
      simp [hc, hE, size_of_fixed hE v]
  · right; simp [hc]

theorem subspan_returns_any {w : Nat} {T : ElementType} {E : Nat} (pol : Policy)
    (v : span w T E) (hv : v.size < 2 ^ w) (o c : Nat) (hoc : o + c ≤ v.size) :
    v.subspan pol o c = .returned ⟨⟨v.data.add T.sizeof o, c⟩⟩ := by
  by_cases hc : c = dynamic_extent w
  · have ho : o ≤ v.size := by omega
    have hc2 : c = 2 ^ w - 1 := hc
    unfold span.subspan
    rw [bind_expect_of_true pol _ (by simp [ho, hc]), mk_ptr_count_dynamic, if_pos hc,
      size_sub_of_le w _ _ ho hv]
    have : v.size - o = c := by omega
    rw [this]
  · exact subspan_returns pol v o c hc hoc

theorem subspan_from_returns {w : Nat} {T : ElementType} {E : Nat} (pol : Policy)
    (v : span w T E) (hv : v.size < 2 ^ w) (o : Nat) (ho : o ≤ v.size) :
    v.subspan_from pol o = .returned ⟨⟨v.data.add T.sizeof o, v.size - o⟩⟩ := by
  unfold span.subspan_from span.subspan
  rw [bind_expect_of_true pol _ (by simp [ho]), mk_ptr_count_dynamic, if_pos rfl,
    size_sub_of_le w _ _ ho hv]

theorem data_of_dynamic {w : Nat} {T : ElementType} (p : Ptr) (n : Nat) :
    (⟨⟨p, n⟩⟩ : span w T (dynamic_extent w)).data = p := rfl

/-! ## Construction from an address and a count -/

/-- C1: a run-time-length view built from an address `p` and a count `n` has
`size() == n` and `data() == p`, and for every `i < n` the access `v[i]`
returns, under every policy, the reference to the element at `p + i`. -/
theorem ptr_count_ctor_size_data_index (w : Nat) (T : ElementType) (pol : Policy) (p : Ptr)
    (n : Nat) :
    ∃ v : span w T (dynamic_extent w),
      span.mk_ptr_count w T (dynamic_extent w) pol p n = .returned v ∧
      v.size = n ∧ v.data = p ∧
      ∀ i, i < n → v.index pol i = .returned (p.add T.sizeof i) := by
  refine ⟨⟨⟨p, n⟩⟩, mk_ptr_count_dynamic w T pol p n, ?_, rfl, ?_⟩
  · simp [span.size, span_storage.size]
  · intro i hi
    exact index_of_lt pol _ i (by simpa [span.size, span_storage.size] using hi)

/-! ## Element access -/

/-- C2: with checking enabled, `v[idx]` signals a contract violation exactly
when `idx >= v.size()` (for every `size_t` value `idx`, so also for `2^w - 2`,
the value a `-2` argument arrives as); `front()` and `back()` signal one
exactly when `v.empty()`; on a non-empty view `front()` is the element `v[0]`
and `back()` the element `v[v.size() - 1]`. -/
theorem index_front_back_contract (w : Nat) (T : ElementType) (E : Nat) (pol : Policy)
    (hpol : pol ≠ .no_checking) (v : span w T E) (idx : Nat) :
    ((v.index pol idx).is_violation = true ↔ v.size ≤ idx) ∧
    ((v.index pol (to_size_t w (-2))).is_violation = true ↔ v.size ≤ 2 ^ w - 2) ∧
    ((v.front pol).is_violation = true ↔ v.empty = true) ∧
    ((v.back pol).is_violation = true ↔ v.empty = true) ∧
    (v.empty = false →
      v.front pol = v.index pol 0 ∧ v.back pol = v.index pol (v.size - 1) ∧
      (v.front pol).is_violation = false ∧ (v.back pol).is_violation = false) := by
  have hidx : ∀ j, (v.index pol j).is_violation = true ↔ v.size ≤ j := by
    intro j
    unfold span.index
    rw [bind_expect_violation pol hpol]
    simp [Outcome.is_violation]
  refine ⟨hidx idx, ?_, ?_, ?_, ?_⟩
  · rw [hidx, to_size_t_neg_two]
  · unfold span.front
    rw [bind_expect_violation pol hpol]
    simp [Outcome.is_violation]
  · unfold span.back
    rw [bind_expect_violation pol hpol]
    simp [Outcome.is_violation]
  · intro hne
    have hpos : 0 < v.size := by
      have : v.size ≠ 0 := by simpa [span.empty] using hne
      omega
    have hf : v.front pol = .returned v.data := by
      unfold span.front
      rw [bind_expect_of_true pol _ (by simp [hne])]
    have hb : v.back pol = .returned (v.data.add T.sizeof (v.size - 1)) := by
      unfold span.back
      rw [bind_expect_of_true pol _ (by simp [hne]), Ptr.add_sub _ _ _ _ hpos]
    refine ⟨?_, ?_, ?_, ?_⟩
    · rw [hf, index_of_lt pol v 0 hpos, Ptr.add_zero]
    · rw [hb, index_of_lt pol v (v.size - 1) (by omega)]
    · rw [hf]; rfl
    · rw [hb]; rfl

/-- Witness for C2: a `span<int>` of five elements, throwing policy, the index
`2^64 - 2`. -/
theorem index_front_back_contract_witness :
    Policy.throw_on_violation ≠ Policy.no_checking ∧
    ((five_ints.index .throw_on_violation (2 ^ 64 - 2)).is_violation = true ↔
      five_ints.size ≤ 2 ^ 64 - 2) :=
  ⟨by decide,
    (index_front_back_contract 64 int_t (dynamic_extent 64) .throw_on_violation (by decide)
      five_ints (2 ^ 64 - 2)).1⟩

/-! ## Construction of a fixed-length view -/

/-- C3: with checking enabled and a fixed length `N`, construction from
`(p, c)` signals a contract violation exactly when `c != N`; construction
from `(first, last)` signals one exactly when the count `last - first`, as a
`size_t`, differs from `N`, which for a range (`last >= first`), and for any
pair of pointers when `N <= PTRDIFF_MAX`, is `last - first != N`.  When the
length agrees the construction returns a view with `data()` at the start of
the source, `size() == N`, and `v[i]` the element `i` of the source. -/
theorem fixed_ctor_length_contract (w : Nat) (T : ElementType) (N : Nat) (pol : Policy)
    (hpol : pol ≠ .no_checking) (hw : 0 < w) (hN : N ≠ dynamic_extent w) (hNw : N < 2 ^ w)
    (p : Ptr) (c : Nat) (first last : Ptr)
    (hlo : -(2 : Int) ^ (w - 1) ≤ Ptr.diff T.sizeof last first)
    (hhi : Ptr.diff T.sizeof last first < (2 : Int) ^ (w - 1)) :
    ((span.mk_ptr_count w T N pol p c).is_violation = true ↔ c ≠ N) ∧
    (c = N → ∃ v : span w T N,
      span.mk_ptr_count w T N pol p c = .returned v ∧ v.data = p ∧ v.size = N ∧
      ∀ i, i < N → v.index pol i = .returned (p.add T.sizeof i)) ∧
    ((span.mk_first_last w T N pol first last).is_violation = true ↔
      to_size_t w (Ptr.diff T.sizeof last first) ≠ N) ∧
    (first.addr ≤ last.addr ∨ N < 2 ^ (w - 1) →
      ((span.mk_first_last w T N pol first last).is_violation = true ↔
        Ptr.diff T.sizeof last first ≠ (N : Int))) ∧
    (Ptr.diff T.sizeof last first = (N : Int) → ∃ v : span w T N,
      span.mk_first_last w T N pol first last = .returned v ∧ v.data = first ∧ v.size = N ∧
      ∀ i, i < N → v.index pol i = .returned (first.add T.sizeof i)) := by
  have hpow : (2 : Int) ^ w = 2 * (2 : Int) ^ (w - 1) := by
    have : w = (w - 1) + 1 := by omega
    conv_lhs => rw [this]
    ring
  have hNi : (N : Int) < (2 : Int) ^ w := by exact_mod_cast hNw
  have hcount := to_size_t_cast w (Ptr.diff T.sizeof last first) (by omega) (by omega)
  have hptr : to_ptrdiff_t w N
      = if (N : Int) < (2 : Int) ^ (w - 1) then (N : Int) else (N : Int) - (2 : Int) ^ w := by
    unfold to_ptrdiff_t
    by_cases h : N < 2 ^ (w - 1)
    · have h2 : (N : Int) < (2 : Int) ^ (w - 1) := by exact_mod_cast h
      rw [if_pos h, if_pos h2]
    · have h2 : ¬ (N : Int) < (2 : Int) ^ (w - 1) := by
        intro h3
        exact h (by exact_mod_cast h3)
      rw [if_neg h, if_neg h2]
  have hcheck : (Ptr.diff T.sizeof last first = to_ptrdiff_t w N) ↔
      to_size_t w (Ptr.diff T.sizeof last first) = N := by
    rw [hptr]
    constructor
    · intro h
      have : (to_size_t w (Ptr.diff T.sizeof last first) : Int) = (N : Int) := by
        rw [hcount]
        split_ifs at h ⊢ <;> omega
      exact_mod_cast this
    · intro h
      have h2 : (to_size_t w (Ptr.diff T.sizeof last first) : Int) = (N : Int) := by
        exact_mod_cast h
      rw [hcount] at h2
      split_ifs at h2 ⊢ <;> omega
  have hexact : first.addr ≤ last.addr ∨ N < 2 ^ (w - 1) →
      (to_size_t w (Ptr.diff T.sizeof last first) = N ↔
        Ptr.diff T.sizeof last first = (N : Int)) := by
    intro hord
    have h0 : 0 ≤ Ptr.diff T.sizeof last first ∨ (N : Int) < (2 : Int) ^ (w - 1) := by
      rcases hord with hle | hlt
      · left
        unfold Ptr.diff
        exact Int.ediv_nonneg (by omega) (by omega)
      · right
        exact_mod_cast hlt
    have hiff : (to_size_t w (Ptr.diff T.sizeof last first) : Int) = (N : Int) ↔
        Ptr.diff T.sizeof last first = (N : Int) := by
      rw [hcount]
      split_ifs <;> constructor <;> intro h <;> omega
    constructor
    · intro h
      exact hiff.1 (by exact_mod_cast h)
    · intro h
      exact_mod_cast hiff.2 h
  have hsize : ∀ (q : Ptr) (n : Nat), (span_storage.init w T N q n).size = N := by
    intro q n
    simp [span_storage.init, span_storage.size, hN]
  have hviol : (span.mk_first_last w T N pol first last).is_violation = true ↔
      to_size_t w (Ptr.diff T.sizeof last first) ≠ N := by
    unfold span.mk_first_last
    rw [bind_expect_violation pol hpol]
    simp [Outcome.is_violation, hN, hcheck]
  refine ⟨?_, ?_, hviol, ?_, ?_⟩
  · unfold span.mk_ptr_count
    rw [bind_expect_violation pol hpol]
    simp [Outcome.is_violation, hN]
  · intro hc
    subst hc
    refine ⟨⟨span_storage.init w T c p c⟩, mk_ptr_count_same w T c pol p, ptr_init w T c p c,
      hsize p c, ?_⟩
    intro i hi
    rw [index_of_lt pol _ i (by simpa [span.size, hsize] using hi)]
    simp [span.data, ptr_init]
  · intro hord
    rw [hviol, ne_eq, ne_eq, hexact hord]
  · intro hd
    have hagree : to_size_t w (Ptr.diff T.sizeof last first) = N := by
      have : (to_size_t w (Ptr.diff T.sizeof last first) : Int) = (N : Int) := by
        rw [hcount, hd]
        split_ifs <;> omega
      exact_mod_cast this
    refine ⟨⟨span_storage.init w T N first (to_size_t w (Ptr.diff T.sizeof last first))⟩,
      ?_, ptr_init _ _ _ _ _, hsize _ _, ?_⟩
    · unfold span.mk_first_last
      rw [bind_expect_of_true pol _ (by simp [hcheck.2 hagree])]
    · intro i hi
      rw [index_of_lt pol _ i (by simpa [span.size, hsize] using hi)]
      simp [span.data, ptr_init]

/-- Witness for C3: `span<int, 3>` from `(4096, 3)` and from the range
`(4096, 4108)`, throwing policy. -/
theorem fixed_ctor_length_contract_witness :
    ((span.mk_ptr_count 64 int_t 3 .throw_on_violation ⟨4096⟩ 3).is_violation = true ↔ 3 ≠ 3) ∧
    ((span.mk_first_last 64 int_t 3 .throw_on_violation ⟨4096⟩ ⟨4108⟩).is_violation = true ↔
      to_size_t 64 (Ptr.diff int_t.sizeof ⟨4108⟩ ⟨4096⟩) ≠ 3) :=
  have h := fixed_ctor_length_contract 64 int_t 3 .throw_on_violation (by decide) (by decide)
    (by decide) (by decide) ⟨4096⟩ 3 ⟨4096⟩ ⟨4108⟩ (by decide) (by decide)
  ⟨h.1, h.2.2.1⟩

/-- The pointer-range constructor on a reversed pair of pointers with an extent
above `PTRDIFF_MAX`: for `span<char, SIZE_MAX - 1>` and `(first, last)` with
`last - first == -2`, the cast `static_cast<ptrdiff_t>(extent)` is `-2` too, so
the check passes; the derived `size_t` count is `2^64 - 2`, the extent. -/
theorem reversed_pair_above_ptrdiff_max :
    Ptr.diff char_t.sizeof ⟨4096⟩ ⟨4098⟩ = -2 ∧
    to_ptrdiff_t 64 (2 ^ 64 - 2) = -2 ∧
    to_size_t 64 (Ptr.diff char_t.sizeof ⟨4096⟩ ⟨4098⟩) = 2 ^ 64 - 2 ∧
    (span.mk_first_last 64 char_t (2 ^ 64 - 2) .throw_on_violation ⟨4098⟩ ⟨4096⟩).is_violation
      = false := by
  refine ⟨by decide, by decide, by decide, by decide⟩

/-! ## Run-time-sized sub-views -/

/-- C4: for every view `v` and every `k <= v.size()`, under every policy,
`v.first(k)` returns a view with `size() == k` and `data() == v.data()`, and
`v.last(k)` returns a view with `size() == k` and
`data() == v.data() + (v.size() - k)`; for every `i < k`, `first(k)[i]` is the
element `v[i]` and `last(k)[i]` is the element `v[v.size() - k + i]`. -/
theorem first_last_runtime (w : Nat) (T : ElementType) (E : Nat) (pol : Policy)
    (v : span w T E) (k : Nat) (hk : k ≤ v.size) :
    (∃ f : span w T (dynamic_extent w),
      v.first pol k = .returned f ∧ f.size = k ∧ f.data = v.data ∧
      ∀ i, i < k →
        f.index pol i = .returned (v.data.add T.sizeof i) ∧ v.index pol i = f.index pol i) ∧
    (∃ l : span w T (dynamic_extent w),
      v.last pol k = .returned l ∧ l.size = k ∧ l.data = v.data.add T.sizeof (v.size - k) ∧
      ∀ i, i < k →
        l.index pol i = .returned (v.data.add T.sizeof (v.size - k + i)) ∧
        v.index pol (v.size - k + i) = l.index pol i) := by
  constructor
  · refine ⟨⟨⟨v.data, k⟩⟩, ?_, ?_, rfl, ?_⟩
    · unfold span.first
      rw [bind_expect_of_true pol _ (by simpa using hk), mk_ptr_count_dynamic]
    · simp [span.size, span_storage.size]
    · intro i hi
      have h1 : (⟨⟨v.data, k⟩⟩ : span w T (dynamic_extent w)).index pol i
          = .returned (v.data.add T.sizeof i) :=
        index_of_lt pol _ i (by simpa [span.size, span_storage.size] using hi)
      exact ⟨h1, by rw [h1, index_of_lt pol v i (by omega)]⟩
  · refine ⟨⟨⟨v.data.add T.sizeof (v.size - k), k⟩⟩, ?_, ?_, rfl, ?_⟩
    · unfold span.last
      rw [bind_expect_of_true pol _ (by simpa using hk), mk_ptr_count_dynamic,
        Ptr.add_sub _ _ _ _ hk]
    · simp [span.size, span_storage.size]
    · intro i hi
      have h1 : (⟨⟨v.data.add T.sizeof (v.size - k), k⟩⟩ : span w T (dynamic_extent w)).index pol i
          = .returned (v.data.add T.sizeof (v.size - k + i)) := by
        rw [index_of_lt pol _ i (by simpa [span.size, span_storage.size] using hi)]
        simp [span.data, Ptr.add_add]
      exact ⟨h1, by rw [h1, index_of_lt pol v _ (by omega)]⟩

/-- Witness for C4: `first(3)` and `last(3)` of a five-element `span<int>`. -/
theorem first_last_runtime_witness :
    ∃ f : span 64 int_t (dynamic_extent 64),
      five_ints.first .terminate_on_violation 3 = .returned f ∧ f.size = 3 ∧
      f.data = five_ints.data ∧
      ∀ i, i < 3 →
        f.index .terminate_on_violation i = .returned (five_ints.data.add int_t.sizeof i) ∧
        five_ints.index .terminate_on_violation i = f.index .terminate_on_violation i :=
  (first_last_runtime 64 int_t (dynamic_extent 64) .terminate_on_violation five_ints 3
    (by decide)).1

/-- C5: with checking enabled, for every view `v` and every `size_t` count `k`
(so also for `2^w - 1`, the value a `-1` argument arrives as), `v.first(k)`
signals a contract violation exactly when `k > v.size()`, and so does
`v.last(k)`. -/
theorem first_last_runtime_contract (w : Nat) (T : ElementType) (E : Nat) (pol : Policy)
    (hpol : pol ≠ .no_checking) (v : span w T E) (k : Nat) :
    ((v.first pol k).is_violation = true ↔ v.size < k) ∧
    ((v.last pol k).is_violation = true ↔ v.size < k) := by
  constructor
  · unfold span.first
    rw [bind_expect_violation pol hpol, mk_ptr_count_dynamic]
    simp [Outcome.is_violation]
  · unfold span.last
    rw [bind_expect_violation pol hpol, mk_ptr_count_dynamic]
    simp [Outcome.is_violation]

/-- Witness for C5: the count `2^64 - 1` on a five-element `span<int>`. -/
theorem first_last_runtime_contract_witness :
    ((five_ints.first .throw_on_violation (2 ^ 64 - 1)).is_violation = true ↔
      five_ints.size < 2 ^ 64 - 1) ∧
    ((five_ints.last .throw_on_violation (2 ^ 64 - 1)).is_violation = true ↔
      five_ints.size < 2 ^ 64 - 1) :=
  first_last_runtime_contract 64 int_t (dynamic_extent 64) .throw_on_violation (by decide)
    five_ints (2 ^ 64 - 1)

/-- C6: for every view `v`, offset `o` and non-sentinel count `c` with
`o + c <= v.size()` in exact arithmetic, under every policy `v.subspan(o, c)`
returns a view `s` with `s.size() == c` and `s.data() == v.data() + o`, and for
every `i < c`, `s[i]` is the element `v[o + i]`. -/
theorem subspan_runtime (w : Nat) (T : ElementType) (E : Nat) (pol : Policy)
    (v : span w T E) (o c : Nat) (hc : c ≠ dynamic_extent w) (hoc : o + c ≤ v.size) :
    ∃ s : span w T (dynamic_extent w),
      v.subspan pol o c = .returned s ∧ s.size = c ∧ s.data = v.data.add T.sizeof o ∧
      ∀ i, i < c →
        s.index pol i = .returned (v.data.add T.sizeof (o + i)) ∧
        v.index pol (o + i) = s.index pol i := by
  refine ⟨⟨⟨v.data.add T.sizeof o, c⟩⟩, ?_, ?_, rfl, ?_⟩
  · unfold span.subspan
    have hsum : size_add w o c ≤ v.size := Nat.le_trans (size_add_le w o c) hoc
    have ho : o ≤ v.size := by omega
    rw [bind_expect_of_true pol _ (by simp [ho, hsum]), mk_ptr_count_dynamic, if_neg hc]
  · simp [span.size, span_storage.size]
  · intro i hi
    have h1 : (⟨⟨v.data.add T.sizeof o, c⟩⟩ : span w T (dynamic_extent w)).index pol i
        = .returned (v.data.add T.sizeof (o + i)) := by
      rw [index_of_lt pol _ i (by simpa [span.size, span_storage.size] using hi)]
      simp [span.data, Ptr.add_add]
    exact ⟨h1, by rw [h1, index_of_lt pol v _ (by omega)]⟩

/-- Witness for C6: `subspan(1, 3)` of a five-element `span<int>`. -/
theorem subspan_runtime_witness :
    ∃ s : span 64 int_t (dynamic_extent 64),
      five_ints.subspan .throw_on_violation 1 3 = .returned s ∧ s.size = 3 ∧
      s.data = five_ints.data.add int_t.sizeof 1 ∧
      ∀ i, i < 3 →
        s.index .throw_on_violation i = .returned (five_ints.data.add int_t.sizeof (1 + i)) ∧
        five_ints.index .throw_on_violation (1 + i) = s.index .throw_on_violation i :=
  subspan_runtime 64 int_t (dynamic_extent 64) .throw_on_violation five_ints 1 3
    (by decide) (by decide)

/-- C7, the code at `subspan(2, -2)` on a five-element `span<int>`: the count
arrives as `2^64 - 2`, the sum `off + cnt` wraps to `0`, the check passes, and
the call returns a view of `2^64 - 2` elements starting at element 2, although
`2 + (2^64 - 2) > 5`. -/
theorem subspan_count_sum_wraps :
    to_size_t 64 (-2) = 2 ^ 64 - 2 ∧
    size_add 64 2 (2 ^ 64 - 2) = 0 ∧
    five_ints.subspan .throw_on_violation 2 (2 ^ 64 - 2)
      = .returned ⟨⟨five_ints.data.add int_t.sizeof 2, 2 ^ 64 - 2⟩⟩ ∧
    (five_ints.subspan .throw_on_violation 2 (2 ^ 64 - 2)).is_violation = false ∧
    ¬ (2 + (2 ^ 64 - 2) ≤ five_ints.size) ∧
    2 ^ 64 - 2 ≠ dynamic_extent 64 := by
  refine ⟨by decide, by decide, by decide, by decide, by decide, by decide⟩

/-- C8: for every view `v` and every offset `o <= v.size()`, `v.subspan(o)`
(count left at the sentinel `dynamic_extent`) returns the view with
`data() == v.data() + o` and `size() == v.size() - o`; and for every real count
`c` valid for `v` at `o` (`o + c <= v.size()`), either `c != dynamic_extent`, or
the view of `c` elements at `v.data() + o` and the view the sentinel gives are
the same view; in both cases `v.subspan(o, c)` returns the view of `c` elements
at `v.data() + o`. -/
theorem subspan_sentinel (w : Nat) (T : ElementType) (E : Nat) (pol : Policy)
    (v : span w T E) (hv : v.size < 2 ^ w) :
    (∀ o, o ≤ v.size →
      ∃ s : span w T (dynamic_extent w),
        v.subspan_from pol o = .returned s ∧ s.data = v.data.add T.sizeof o ∧
        s.size = v.size - o) ∧
    (∀ o c, o + c ≤ v.size →
      (c ≠ dynamic_extent w ∨
        (⟨⟨v.data.add T.sizeof o, c⟩⟩ : span w T (dynamic_extent w))
          = ⟨⟨v.data.add T.sizeof o, size_sub w v.size o⟩⟩) ∧
      v.subspan pol o c = .returned ⟨⟨v.data.add T.sizeof o, c⟩⟩) := by
  constructor
  · intro o ho
    refine ⟨⟨⟨v.data.add T.sizeof o, v.size - o⟩⟩, ?_, rfl, ?_⟩
    · unfold span.subspan_from span.subspan
      rw [bind_expect_of_true pol _ (by simp [ho]), mk_ptr_count_dynamic, if_pos rfl,
        size_sub_of_le w _ _ ho hv]
    · simp [span.size, span_storage.size]
  · intro o c hoc
    have ho : o ≤ v.size := by omega
    have hsent : c = dynamic_extent w → size_sub w v.size o = c := by
      intro hc
      have hc2 : c = 2 ^ w - 1 := hc
      rw [size_sub_of_le w _ _ ho hv]
      omega
    constructor
    · by_cases hc : c = dynamic_extent w
      · right
        rw [hsent hc]
      · left
        exact hc
    · unfold span.subspan
      have hsum : size_add w o c ≤ v.size := Nat.le_trans (size_add_le w o c) hoc
      rw [bind_expect_of_true pol _ (by simp [ho, hsum]), mk_ptr_count_dynamic]
      split
      · rename_i hc
        rw [hsent hc]
      · rfl

/-- Witness for C8: `subspan(2)` of a five-element `span<int>`. -/
theorem subspan_sentinel_witness :
    ∃ s : span 64 int_t (dynamic_extent 64),
      five_ints.subspan_from .throw_on_violation 2 = .returned s ∧
      s.data = five_ints.data.add int_t.sizeof 2 ∧ s.size = five_ints.size - 2 :=
  (subspan_sentinel 64 int_t (dynamic_extent 64) .throw_on_violation five_ints
    (by decide)).1 2 (by decide)

/-- C9: for every view `v`, under every policy, `v.first(0)`, `v.last(0)` and
`v.subspan(v.size(), 0)` return an empty view, anchored at `v.data()`, at
`v.data() + v.size()` and at `v.data() + v.size()`; this includes the
default-constructed view, for which all three are the empty view at the null
pointer. -/
theorem zero_length_subviews (w : Nat) (T : ElementType) (E : Nat) (pol : Policy)
    (v : span w T E) :
    (∃ f : span w T (dynamic_extent w),
      v.first pol 0 = .returned f ∧ f.empty = true ∧ f.size = 0 ∧ f.data = v.data) ∧
    (∃ l : span w T (dynamic_extent w),
      v.last pol 0 = .returned l ∧ l.empty = true ∧ l.size = 0 ∧
      l.data = v.data.add T.sizeof v.size) ∧
    (∃ s : span w T (dynamic_extent w),
      v.subspan pol v.size 0 = .returned s ∧ s.empty = true ∧ s.size = 0 ∧
      s.data = v.data.add T.sizeof v.size) ∧
    (span.mk_default w T (dynamic_extent w)).first pol 0 = .returned ⟨⟨nullptr, 0⟩⟩ ∧
    (span.mk_default w T (dynamic_extent w)).last pol 0 = .returned ⟨⟨nullptr, 0⟩⟩ ∧
    (span.mk_default w T (dynamic_extent w)).subspan pol
      (span.mk_default w T (dynamic_extent w)).size 0 = .returned ⟨⟨nullptr, 0⟩⟩ := by
  have hfirst : ∀ {E2 : Nat} (u : span w T E2), u.first pol 0 = .returned ⟨⟨u.data, 0⟩⟩ := by
    intro E2 u
    unfold span.first
    rw [bind_expect_of_true pol _ (by simp), mk_ptr_count_dynamic]
  have hlast : ∀ {E2 : Nat} (u : span w T E2),
      u.last pol 0 = .returned ⟨⟨u.data.add T.sizeof u.size, 0⟩⟩ := by
    intro E2 u
    unfold span.last
    rw [bind_expect_of_true pol _ (by simp), mk_ptr_count_dynamic,
      Ptr.add_sub _ _ _ _ (Nat.zero_le _)]
    rfl
  have hsub : ∀ {E2 : Nat} (u : span w T E2),
      u.subspan pol u.size 0 = .returned ⟨⟨u.data.add T.sizeof u.size, 0⟩⟩ := by
    intro E2 u
    unfold span.subspan
    have hsum : size_add w u.size 0 ≤ u.size := size_add_le w u.size 0
    rw [bind_expect_of_true pol _ (by simp [hsum]), mk_ptr_count_dynamic]
    split
    · have : size_sub w u.size u.size = 0 := by simp [size_sub]
      rw [this]
    · rfl
  have hempty : ∀ q : Ptr, (⟨⟨q, 0⟩⟩ : span w T (dynamic_extent w)).size = 0 := by
    intro q
    simp [span.size, span_storage.size]
  have hdef : (span.mk_default w T (dynamic_extent w)).data = nullptr := rfl
  have hdefsize : (span.mk_default w T (dynamic_extent w)).size = 0 := by
    simp [span.mk_default, span_storage.init_default, span.size, span_storage.size]
  refine ⟨⟨_, hfirst v, ?_, hempty _, rfl⟩, ⟨_, hlast v, ?_, hempty _, rfl⟩,
    ⟨_, hsub v, ?_, hempty _, rfl⟩, ?_, ?_, ?_⟩
  · simp [span.empty, hempty]
  · simp [span.empty, hempty]
  · simp [span.empty, hempty]
  · rw [hfirst, hdef]
  · rw [hlast, hdef, hdefsize, Ptr.add_zero]
  · rw [hsub, hdef, hdefsize, Ptr.add_zero]

/-! ## Compile-time-sized sub-views -/

/-- C10: for every view `v` of length `n = v.size()`, under every policy:
`first<N>()` with `N <= n` returns a `span<_, N>` with `size() == N` and
`data() == v.data()`; `last<N>()` with `N <= n` returns a `span<_, N>` with
`data() == v.data() + (n - N)`; `subspan<O, C>()` with `O + C <= n` returns a
view whose extent is `C`, with `size() == C` and `data() == v.data() + O`;
`subspan<O>()` with `O <= n` returns a view of length `n - O` at
`v.data() + O` whose extent is `Extent - O` when the source has a fixed
`Extent` and `dynamic_extent` otherwise.  None of the calls signals a
violation, the check in the result's constructor included. -/
theorem fixed_subviews (w : Nat) (T : ElementType) (E : Nat) (pol : Policy)
    (v : span w T E) (hv : v.size < 2 ^ w) :
    (∀ N, N ≤ v.size →
      ∃ r : span w T N, v.first_fixed pol N = .returned r ∧ r.size = N ∧ r.data = v.data) ∧
    (∀ N, N ≤ v.size →
      ∃ r : span w T N, v.last_fixed pol N = .returned r ∧ r.size = N ∧
        r.data = v.data.add T.sizeof (v.size - N)) ∧
    (∀ O C, O + C ≤ v.size →
      subspan_extent w E O C = C ∧
      ∃ r : span w T (subspan_extent w E O C),
        v.subspan_fixed pol O C = .returned r ∧ r.size = C ∧
        r.data = v.data.add T.sizeof O) ∧
    (∀ O, O ≤ v.size →
      subspan_extent w E O (dynamic_extent w)
        = (if E ≠ dynamic_extent w then E - O else dynamic_extent w) ∧
      ∃ r : span w T (subspan_extent w E O (dynamic_extent w)),
        v.subspan_fixed pol O (dynamic_extent w) = .returned r ∧ r.size = v.size - O ∧
        r.data = v.data.add T.sizeof O) := by
  have hsizeE : E ≠ dynamic_extent w → v.size = E := by
    intro hE
    simp [span.size, span_storage.size, hE]
  refine ⟨?_, ?_, ?_, ?_⟩
  · intro N hN
    obtain ⟨r, h1, h2, h3⟩ := mk_ptr_count_ok w T N pol v.data N (Or.inr rfl)
    refine ⟨r, ?_, h2, h3⟩
    unfold span.first_fixed
    rw [bind_expect_of_true pol _ (by simpa using hN), h1]
  · intro N hN
    obtain ⟨r, h1, h2, h3⟩ :=
      mk_ptr_count_ok w T N pol (v.data.add T.sizeof (v.size - N)) N (Or.inr rfl)
    refine ⟨r, ?_, h2, h3⟩
    unfold span.last_fixed
    rw [bind_expect_of_true pol _ (by simpa using hN), size_sub_of_le w _ _ hN hv, h1]
  · intro O C hOC
    have hO : O ≤ v.size := by omega
    have hsum : size_add w O C ≤ v.size := Nat.le_trans (size_add_le w O C) hOC
    have hsent : C = dynamic_extent w → E = dynamic_extent w ∧ size_sub w v.size O = C := by
      intro hC
      have hC2 : C = 2 ^ w - 1 := hC
      refine ⟨?_, ?_⟩
      · by_contra hE
        have h1 := hsizeE hE
        have h2 : E = 2 ^ w - 1 := by omega
        exact hE h2
      · rw [size_sub_of_le w _ _ hO hv]
        omega
    have hext : subspan_extent w E O C = C := by
      unfold subspan_extent
      by_cases hC : C = dynamic_extent w
      · simp [hC, (hsent hC).1]
      · simp [hC]
    have hcount : (if C ≠ dynamic_extent w then C else size_sub w v.size O) = C := by
      by_cases hC : C = dynamic_extent w
      · rw [if_neg (by simp [hC]), (hsent hC).2]
      · simp [hC]
    obtain ⟨r, h1, h2, h3⟩ := mk_ptr_count_ok w T (subspan_extent w E O C) pol
      (v.data.add T.sizeof O) C (Or.inr hext.symm)
    refine ⟨hext, r, ?_, h2, h3⟩
    unfold span.subspan_fixed
    rw [bind_expect_of_true pol _ (by simp [hO, hsum]), hcount, h1]
  · intro O hO
    have hext : subspan_extent w E O (dynamic_extent w)
        = (if E ≠ dynamic_extent w then E - O else dynamic_extent w) := by
      unfold subspan_extent
      by_cases hE : E = dynamic_extent w
      · simp [hE]
      · have h1 := hsizeE hE
        simp only [ne_eq, not_true_eq_false, if_false, hE, not_false_eq_true, if_true]
        rw [← h1, size_sub_of_le w _ _ hO hv]
    have hok : subspan_extent w E O (dynamic_extent w) = dynamic_extent w ∨
        v.size - O = subspan_extent w E O (dynamic_extent w) := by
      rw [hext]
      by_cases hE : E = dynamic_extent w
      · left; simp [hE]
      · right; simp [hE, hsizeE hE]
    obtain ⟨r, h1, h2, h3⟩ := mk_ptr_count_ok w T (subspan_extent w E O (dynamic_extent w)) pol
      (v.data.add T.sizeof O) (v.size - O) hok
    refine ⟨hext, r, ?_, h2, h3⟩
    unfold span.subspan_fixed
    rw [bind_expect_of_true pol _ (by simp [hO]), if_neg (by simp),
      size_sub_of_le w _ _ hO hv, h1]

/-- Witness for C10: `first<3>()` of a `span<int, 5>`. -/
theorem fixed_subviews_witness :
    ∃ r : span 64 int_t 3,
      five_ints_fixed.first_fixed .throw_on_violation 3 = .returned r ∧ r.size = 3 ∧
      r.data = five_ints_fixed.data :=
  (fixed_subviews 64 int_t 5 .throw_on_violation five_ints_fixed (by decide)).1 3 (by decide)

/-- C11, the code at `subspan<2, SIZE_MAX - 1>()` on a five-element
`span<int>` and on a `span<int, 5>`: the constant sum `Offset + Count` wraps to
`0`, the check passes, the constructor of the result receives a count equal to
its extent, and the call returns a `span<int, SIZE_MAX - 1>` starting at element
2, although `2 + (2^64 - 2) > 5`.  `first<6>()` and `last<6>()` on the same
views do signal a violation. -/
theorem subspan_fixed_count_sum_wraps :
    size_add 64 2 (2 ^ 64 - 2) = 0 ∧
    2 ^ 64 - 2 ≠ dynamic_extent 64 ∧
    ¬ (2 + (2 ^ 64 - 2) ≤ five_ints.size) ∧
    (five_ints.subspan_fixed .throw_on_violation 2 (2 ^ 64 - 2)).is_violation = false ∧
    five_ints.subspan_fixed .throw_on_violation 2 (2 ^ 64 - 2)
      = .returned ⟨⟨five_ints.data.add int_t.sizeof 2, 0⟩⟩ ∧
    subspan_extent 64 (dynamic_extent 64) 2 (2 ^ 64 - 2) = 2 ^ 64 - 2 ∧
    (five_ints_fixed.subspan_fixed .throw_on_violation 2 (2 ^ 64 - 2)).is_violation = false ∧
    (five_ints.first_fixed .throw_on_violation 6).is_violation = true ∧
    (five_ints.last_fixed .throw_on_violation 6).is_violation = true := by
  refine ⟨by decide, by decide, by decide, by decide, by decide, by decide, by decide,
    by decide, by decide⟩

/-! ## The fixed-length invariant -/

/-- C12: if the extent `N` of a view type is fixed, every value of the type
reports `size() == N`, and so does the result of each way of obtaining one:
the default constructor, address and count, a pointer pair, an array (whose
length is then `N`), another view (whose extent and length are then `N`), and
`first<N>()`, `last<N>()`, `subspan<O, C>()`.  With checking enabled, an
address+count construction with `c != N`, and a pointer-pair construction
whose count differs from `N`, return no value. -/
theorem fixed_extent_size_invariant (w : Nat) (T : ElementType) (N : Nat) (pol : Policy)
    (hN : N ≠ dynamic_extent w) :
    (∀ v : span w T N, v.size = N) ∧
    (span.mk_default w T N).size = N ∧
    (∀ p c v, span.mk_ptr_count w T N pol p c = .returned v → v.size = N) ∧
    (∀ first last v, span.mk_first_last w T N pol first last = .returned v → v.size = N) ∧
    (∀ arr v, span.mk_array w T N arr = some v → v.size = N ∧ arr.N = N) ∧
    (∀ (U : ElementType) (M : Nat) (other : span w U M) (v : span w T N),
      span.mk_from_span w T N other = some v → v.size = N ∧ M = N ∧ other.size = N) ∧
    (∀ (E : Nat) (src : span w T E) (r : span w T N),
      src.first_fixed pol N = .returned r ∨ src.last_fixed pol N = .returned r → r.size = N) ∧
    (∀ (E O C : Nat) (src : span w T E) (r : span w T (subspan_extent w E O C)),
      subspan_extent w E O C ≠ dynamic_extent w → src.subspan_fixed pol O C = .returned r →
      r.size = subspan_extent w E O C) ∧
    (pol ≠ .no_checking → ∀ p c, c ≠ N →
      (span.mk_ptr_count w T N pol p c).is_violation = true ∧
      ∀ v, span.mk_ptr_count w T N pol p c ≠ .returned v) ∧
    (pol ≠ .no_checking → 0 < w → N < 2 ^ w → ∀ first last,
      -(2 : Int) ^ (w - 1) ≤ Ptr.diff T.sizeof last first →
      Ptr.diff T.sizeof last first < (2 : Int) ^ (w - 1) →
      (to_size_t w (Ptr.diff T.sizeof last first) ≠ N ∨
        (first.addr ≤ last.addr ∧ Ptr.diff T.sizeof last first ≠ (N : Int))) →
      (span.mk_first_last w T N pol first last).is_violation = true ∧
      ∀ v, span.mk_first_last w T N pol first last ≠ .returned v) := by
  have hsz : ∀ v : span w T N, v.size = N := size_of_fixed hN
  refine ⟨hsz, hsz _, fun _ _ v _ => hsz v, fun _ _ v _ => hsz v, ?_, ?_, fun _ _ r _ => hsz r,
    ?_, ?_, ?_⟩
  · intro arr v h
    refine ⟨hsz v, ?_⟩
    unfold span.mk_array at h
    split at h
    · rename_i hc
      simp only [Bool.and_eq_true, Bool.or_eq_true, beq_iff_eq] at hc
      rcases hc.1 with h1 | h1
      · exact absurd h1 hN
      · exact h1
    · simp at h
  · intro U M other v h
    obtain ⟨_, hext, _⟩ := mk_from_span_some other v h
    have hM : M = N := by
      rcases hext with h1 | h1
      · exact absurd h1 hN
      · exact h1.symm
    subst hM
    exact ⟨hsz v, rfl, size_of_fixed hN other⟩
  · intro E O C src r hX _
    exact size_of_fixed hX r
  · intro hpol p c hc
    have hv : (span.mk_ptr_count w T N pol p c).is_violation = true := by
      unfold span.mk_ptr_count
      rw [bind_expect_violation pol hpol]
      simp [Outcome.is_violation, hN, hc]
    refine ⟨hv, ?_⟩
    intro v hret
    rw [is_violation_returned _ v hret] at hv
    exact Bool.noConfusion hv
  · intro hpol hw hNw first last hlo hhi hne
    have hcount : to_size_t w (Ptr.diff T.sizeof last first) ≠ N := by
      rcases hne with h | ⟨hle, h⟩
      · exact h
      · have h0 : 0 ≤ Ptr.diff T.sizeof last first := by
          unfold Ptr.diff
          exact Int.ediv_nonneg (by omega) (by omega)
        rw [ne_eq, range_count_exact w N _ hw hlo hhi h0]
        exact h
    have hv : (span.mk_first_last w T N pol first last).is_violation = true := by
      unfold span.mk_first_last
      rw [bind_expect_violation pol hpol]
      simp [Outcome.is_violation, hN, range_check_iff w N _ hw hNw hlo hhi, hcount]
    refine ⟨hv, ?_⟩
    intro v hret
    rw [is_violation_returned _ v hret] at hv
    exact Bool.noConfusion hv

/-- Witness for C12: the extent 5 with `int` elements; `span<int, 5>` reports
size 5. -/
theorem fixed_extent_size_invariant_witness : five_ints_fixed.size = 5 :=
  (fixed_extent_size_invariant 64 int_t 5 .throw_on_violation (by decide)).1 five_ints_fixed

/-! ## Conversions between views -/

/-- C13: constructing `span<T, E>` from a `span<U, N>` is permitted exactly when
`U (*)[]` converts to `T (*)[]`, that is `T` is `U` with cv-qualifiers added
(`int` to `const int` yes, `const int` to `int` no, `float` to `int` no), and
`E` is `dynamic_extent` or `E == N`.  A container is accepted only when the
pointee of its `data()` converts the same way (`span<int>` from
`std::vector<int> &` yes, from `const std::vector<int> &` no).  Every permitted
view-to-view conversion runs no check and yields a view with the `data()` and
the `size()` of its source. -/
theorem converting_ctor_permitted (w : Nat) (T U : ElementType) (E N : Nat)
    (other : span w U N) :
    ((span.mk_from_span w T E other).isSome = true ↔
      is_array_ptr_convertible U T = true ∧ (E = dynamic_extent w ∨ E = N)) ∧
    (is_array_ptr_convertible U T = true ↔
      U.base = T.base ∧ (U.is_const = true → T.is_const = true) ∧
      (U.is_volatile = true → T.is_volatile = true)) ∧
    is_array_ptr_convertible int_t const_int_t = true ∧
    is_array_ptr_convertible const_int_t int_t = false ∧
    is_array_ptr_convertible float_t int_t = false ∧
    (∀ c : ContainerArg, (span.mk_container w T E c).isSome = true →
      is_array_ptr_convertible c.pointee T = true ∧ E = dynamic_extent w) ∧
    (span.mk_container 64 int_t (dynamic_extent 64) vec_int_ref).isSome = true ∧
    (span.mk_container 64 int_t (dynamic_extent 64) vec_int_const_ref).isSome = false ∧
    (span.mk_container 64 const_int_t (dynamic_extent 64) vec_int_const_ref).isSome = true ∧
    (∀ v : span w T E, span.mk_from_span w T E other = some v →
      v.data = other.data ∧ v.size = other.size) := by
  refine ⟨?_, ?_, by decide, by decide, by decide, ?_, by decide, by decide, by decide, ?_⟩
  · unfold span.mk_from_span
    split
    · rename_i hc
      simp only [Bool.and_eq_true, Bool.or_eq_true, beq_iff_eq] at hc
      simp [hc.1, hc.2]
    · rename_i hc
      simp only [Bool.and_eq_true, Bool.or_eq_true, beq_iff_eq] at hc
      simp only [Option.isSome_none, Bool.false_eq_true, false_iff]
      exact hc
  · unfold is_array_ptr_convertible
    cases U.is_const <;> cases T.is_const <;> cases U.is_volatile <;> cases T.is_volatile <;>
      simp
  · intro c h
    unfold span.mk_container at h
    split at h
    · rename_i hc
      simp only [Bool.and_eq_true, beq_iff_eq, is_container_element_type_compatible] at hc
      exact ⟨hc.2.2, hc.1.1⟩
    · simp at h
  · intro v h
    obtain ⟨_, hext, hv⟩ := mk_from_span_some other v h
    subst hv
    refine ⟨ptr_init w T E _ _, ?_⟩
    by_cases hE : E = dynamic_extent w
    · subst hE
      simp [span.size, span_storage.size, span_storage.init]
    · have hEN : E = N := by
        rcases hext with h1 | h1
        · exact absurd h1 hE
        · exact h1
      subst hEN
      rw [size_of_fixed hE, size_of_fixed hE]

/-- C15: for a run-time-length view built from `(first, last)` with
`last >= first`, under every policy: `size() == last - first` in elements,
`data() == first`, and the view is the one built from `(first, last - first)`;
when `first == last` the construction returns and the view is empty. -/
theorem range_ctor_dynamic (w : Nat) (T : ElementType) (pol : Policy) (first last : Ptr)
    (hle : first.addr ≤ last.addr)
    (hhi : Ptr.diff T.sizeof last first < (2 : Int) ^ w) :
    (∃ v : span w T (dynamic_extent w),
      span.mk_first_last w T (dynamic_extent w) pol first last = .returned v ∧
      (v.size : Int) = Ptr.diff T.sizeof last first ∧ v.data = first ∧
      span.mk_ptr_count w T (dynamic_extent w) pol first
        (Ptr.diff T.sizeof last first).toNat = .returned v ∧
      (first = last → v.empty = true)) ∧
    (∃ e : span w T (dynamic_extent w),
      span.mk_first_last w T (dynamic_extent w) pol first first = .returned e ∧
      e.empty = true ∧ e.size = 0 ∧ e.data = first) := by
  have h0 : 0 ≤ Ptr.diff T.sizeof last first := by
    unfold Ptr.diff
    exact Int.ediv_nonneg (by omega) (by omega)
  have hcount : to_size_t w (Ptr.diff T.sizeof last first)
      = (Ptr.diff T.sizeof last first).toNat := by
    have h1 := to_size_t_cast w (Ptr.diff T.sizeof last first) (by
      have : (0 : Int) < (2 : Int) ^ w := by positivity
      omega) hhi
    rw [if_pos h0] at h1
    omega
  have hmk : ∀ a b : Ptr, span.mk_first_last w T (dynamic_extent w) pol a b
      = .returned ⟨⟨a, to_size_t w (Ptr.diff T.sizeof b a)⟩⟩ := by
    intro a b
    unfold span.mk_first_last
    rw [bind_expect_of_true pol _ (by simp)]
    simp [span_storage.init]
  have hself : to_size_t w (Ptr.diff T.sizeof first first) = 0 := by
    simp [Ptr.diff, to_size_t]
  constructor
  · refine ⟨⟨⟨first, (Ptr.diff T.sizeof last first).toNat⟩⟩, ?_, ?_, rfl, ?_, ?_⟩
    · rw [hmk, hcount]
    · rw [size_of_dynamic]
      omega
    · exact mk_ptr_count_dynamic w T pol first _
    · intro h
      subst h
      have : (Ptr.diff T.sizeof first first).toNat = 0 := by simp [Ptr.diff]
      simp [span.empty, size_of_dynamic, this]
  · refine ⟨⟨⟨first, 0⟩⟩, ?_, ?_, size_of_dynamic _ _, rfl⟩
    · rw [hmk, hself]
    · simp [span.empty, size_of_dynamic]

/-- Witness for C15: `span<int>(arr + 1, arr + 4)` over an array at 4096. -/
theorem range_ctor_dynamic_witness :
    ∃ v : span 64 int_t (dynamic_extent 64),
      span.mk_first_last 64 int_t (dynamic_extent 64) .throw_on_violation ⟨4100⟩ ⟨4112⟩
        = .returned v ∧
      (v.size : Int) = Ptr.diff int_t.sizeof ⟨4112⟩ ⟨4100⟩ ∧ v.data = ⟨4100⟩ ∧
      span.mk_ptr_count 64 int_t (dynamic_extent 64) .throw_on_violation ⟨4100⟩
        (Ptr.diff int_t.sizeof ⟨4112⟩ ⟨4100⟩).toNat = .returned v ∧
      ((⟨4100⟩ : Ptr) = ⟨4112⟩ → v.empty = true) :=
  (range_ctor_dynamic 64 int_t .throw_on_violation ⟨4100⟩ ⟨4112⟩ (by decide) (by decide)).1

/-! ## Byte views -/

/-- C17: over a byte-addressed memory `m`, for a view `v` with element size `s`
whose byte count is representable: `as_bytes(v)` returns a byte view `b` such
that for every `i < v.size()`, with `e` the reference `v[i]` (element `i`
occupies the bytes at `e, .., e + s - 1`), every access `b[s * i + j]`,
`j < s`, returns the reference to the byte at `e + j`, which holds byte `j` of
element `i`; so the bytes read at `b[s * i] .. b[s * (i + 1) - 1]` are the
object representation of element `i`. -/
theorem as_bytes_element_bytes (w : Nat) (T : ElementType) (E : Nat) (pol : Policy)
    (v : span w T E) (hv : v.size * T.sizeof < 2 ^ w) (m : Memory) :
    ∃ b : span w const_byte_t (bytes_extent w T E),
      as_bytes pol v = .returned b ∧
      ∀ i, i < v.size → ∃ e : Ptr,
        v.index pol i = .returned e ∧ e = v.data.add T.sizeof i ∧
        (∀ j, j < T.sizeof →
          b.index pol (T.sizeof * i + j) = .returned (e.add const_byte_t.sizeof j) ∧
          m.load_through const_byte_t.sizeof (b.index pol (T.sizeof * i + j))
            = some [(m.load T.sizeof e).getD j 0]) ∧
        (List.range T.sizeof).map
            (fun j => m.load_through const_byte_t.sizeof (b.index pol (T.sizeof * i + j)))
          = (m.load T.sizeof e).map (fun x => some [x]) := by
  obtain ⟨b, h1, h2, h3⟩ := bytes_ctor_ok const_byte_t pol v
  have hsb := size_bytes_exact v hv
  refine ⟨b, ?_, ?_⟩
  · unfold as_bytes
    rw [h1]
    rfl
  · intro i hi
    have hbyte : ∀ j, j < T.sizeof →
        b.index pol (T.sizeof * i + j)
          = .returned ((v.data.add T.sizeof i).add const_byte_t.sizeof j) := by
      intro j hj
      have hlt : T.sizeof * i + j < b.size := by
        rw [h2, hsb]
        calc T.sizeof * i + j < T.sizeof * i + T.sizeof := by omega
          _ = (i + 1) * T.sizeof := by ring
          _ ≤ v.size * T.sizeof := Nat.mul_le_mul_right _ hi
      rw [index_of_lt pol b _ hlt, h3]
      congr 1
      simp only [Ptr.add, const_byte_t, Ptr.mk.injEq]
      push_cast
      ring
    have hload : ∀ j, j < T.sizeof →
        m.load_through const_byte_t.sizeof (b.index pol (T.sizeof * i + j))
          = some [m ((v.data.add T.sizeof i).addr + (j : Int))] := by
      intro j hj
      rw [hbyte j hj]
      simp [Memory.load_through, Memory.load, const_byte_t, Ptr.add, List.range_succ]
    refine ⟨v.data.add T.sizeof i, index_of_lt pol v i hi, rfl, ?_, ?_⟩
    · intro j hj
      refine ⟨hbyte j hj, ?_⟩
      rw [hload j hj]
      simp [Memory.load, List.getD, hj]
    · unfold Memory.load
      rw [List.map_map]
      apply List.map_congr_left
      intro j hj
      rw [hload j (List.mem_range.mp hj)]
      rfl

/-- Witness for C17: the six-`int` array at 4096 and its byte view. -/
theorem as_bytes_element_bytes_witness :
    ∃ b : span 64 const_byte_t (bytes_extent 64 int_t (dynamic_extent 64)),
      as_bytes .throw_on_violation six_ints = .returned b ∧
      ∀ i, i < six_ints.size → ∃ e : Ptr,
        six_ints.index .throw_on_violation i = .returned e ∧
        e = six_ints.data.add int_t.sizeof i ∧
        (∀ j, j < int_t.sizeof →
          b.index .throw_on_violation (int_t.sizeof * i + j)
            = .returned (e.add const_byte_t.sizeof j) ∧
          six_ints_memory.load_through const_byte_t.sizeof
              (b.index .throw_on_violation (int_t.sizeof * i + j))
            = some [(six_ints_memory.load int_t.sizeof e).getD j 0]) ∧
        (List.range int_t.sizeof).map
            (fun j => six_ints_memory.load_through const_byte_t.sizeof
              (b.index .throw_on_violation (int_t.sizeof * i + j)))
          = (six_ints_memory.load int_t.sizeof e).map (fun x => some [x]) :=
  as_bytes_element_bytes 64 int_t (dynamic_extent 64) .throw_on_violation six_ints (by decide)
    six_ints_memory

/-! ## Shared referent -/

/-- C18: over an explicit memory `m`, for every view `v`, every object
representation `x` of its element type and every valid sub-view `s` of `v`
(`first(k)` with offset 0, `last(k)` with offset `v.size() - k`,
`subspan(o, c)` with offset `o`): for every `i < s.size()`, writing `x` through
`s[i]` makes `v[o + i]` read `x` and leaves every other `v[j]` unchanged, and
writing `x` through `v[o + i]` is read back by `s[i]`. -/
theorem subview_writes_shared (w : Nat) (T : ElementType) (E : Nat) (pol : Policy)
    (v : span w T E) (m : Memory) (x : List Nat) (hx : x.length = T.sizeof) :
    (∀ k, k ≤ v.size →
      ∃ f : span w T (dynamic_extent w), v.first pol k = .returned f ∧ f.size = k ∧
        writes_shared pol m x v f 0) ∧
    (∀ k, k ≤ v.size →
      ∃ l : span w T (dynamic_extent w), v.last pol k = .returned l ∧ l.size = k ∧
        writes_shared pol m x v l (v.size - k)) ∧
    (∀ o c, c ≠ dynamic_extent w → o + c ≤ v.size →
      ∃ s : span w T (dynamic_extent w), v.subspan pol o c = .returned s ∧ s.size = c ∧
        writes_shared pol m x v s o) := by
  refine ⟨?_, ?_, ?_⟩
  · intro k hk
    refine ⟨_, first_returns pol v k hk, size_of_dynamic _ _, ?_⟩
    apply writes_shared_of pol m x hx
    · simp [span.data, Ptr.add_zero]
    · rw [size_of_dynamic]; omega
  · intro k hk
    refine ⟨_, last_returns pol v k hk, size_of_dynamic _ _, ?_⟩
    apply writes_shared_of pol m x hx
    · rfl
    · rw [size_of_dynamic]; omega
  · intro o c hc hoc
    refine ⟨_, subspan_returns pol v o c hc hoc, size_of_dynamic _ _, ?_⟩
    apply writes_shared_of pol m x hx
    · rfl
    · rw [size_of_dynamic]; omega

/-- Witness for C18: `arr = {0, 1, 2, 3, 4, 5}`, `mid = span(arr, 6).subspan(2, 3)`,
`mid[1] = 42`: afterwards `arr[3]` reads 42 and `arr[2]` still reads 2. -/
theorem subview_writes_shared_witness :
    (∃ mid : span 64 int_t (dynamic_extent 64),
      six_ints.subspan .throw_on_violation 2 3 = .returned mid ∧ mid.size = 3 ∧
      writes_shared .throw_on_violation six_ints_memory [42, 0, 0, 0] six_ints mid 2) ∧
    six_ints.subspan .throw_on_violation 2 3 = .returned ⟨⟨⟨4104⟩, 3⟩⟩ ∧
    (six_ints_memory.store_through
        ((⟨⟨⟨4104⟩, 3⟩⟩ : span 64 int_t (dynamic_extent 64)).index .throw_on_violation 1)
        [42, 0, 0, 0]).load_through 4 (six_ints.index .throw_on_violation 3)
      = some [42, 0, 0, 0] ∧
    (six_ints_memory.store_through
        ((⟨⟨⟨4104⟩, 3⟩⟩ : span 64 int_t (dynamic_extent 64)).index .throw_on_violation 1)
        [42, 0, 0, 0]).load_through 4 (six_ints.index .throw_on_violation 2)
      = some [2, 0, 0, 0] :=
  ⟨(subview_writes_shared 64 int_t (dynamic_extent 64) .throw_on_violation six_ints
      six_ints_memory [42, 0, 0, 0] (by decide)).2.2 2 3 (by decide) (by decide),
    by decide, by decide, by decide⟩

/-! ## Observers and iteration -/

/-- C19: for every view `v`, of fixed or run-time length, `v.empty()` is true
exactly when `v.size() == 0`; for a fixed extent `E` that is when `E == 0`. -/
theorem empty_iff_size_zero (w : Nat) (T : ElementType) (E : Nat) (v : span w T E) :
    (v.empty = true ↔ v.size = 0) ∧
    (E ≠ dynamic_extent w → (v.empty = true ↔ E = 0)) ∧
    (E = dynamic_extent w → (v.empty = true ↔ v.storage_.dyn_size = 0)) := by
  refine ⟨by simp [span.empty], ?_, ?_⟩
  · intro hE
    simp [span.empty, size_of_fixed hE]
  · intro hE
    simp [span.empty, span.size, span_storage.size, hE]

/-- C20: for every view `v` (element size at least one byte): `begin()` is
`data()`, `end()` is `data() + size()` and `end() - begin() == size()`; the
loop from `begin()` to `end()`, given at least `size()` iterations, visits
exactly `v[0], v[1], .., v[size() - 1]` in that order; the loop from `rbegin()`
to `rend()` visits the same references in the reverse order; for an empty view
`begin() == end()`. -/
theorem iteration_visits_elements (w : Nat) (T : ElementType) (E : Nat) (pol : Policy)
    (v : span w T E) (hsz : 0 < T.sizeof) :
    v.begin = v.data ∧ v.end_ = v.data.add T.sizeof v.size ∧
    Ptr.diff T.sizeof v.end_ v.begin = (v.size : Int) ∧
    (∀ fuel, v.size ≤ fuel →
      (forward_walk T.sizeof fuel v.begin v.end_).map Outcome.returned
        = (List.range v.size).map (fun i => v.index pol i)) ∧
    (∀ fuel, v.size ≤ fuel →
      (reverse_walk T.sizeof fuel v.rbegin v.rend).map Outcome.returned
        = ((List.range v.size).map (fun i => v.index pol i)).reverse) ∧
    (v.empty = true → v.begin = v.end_) := by
  have hidx : (List.range v.size).map (fun i => v.index pol i)
      = ((List.range v.size).map (fun i => v.data.add T.sizeof i)).map Outcome.returned := by
    rw [List.map_map]
    apply List.map_congr_left
    intro i hi
    exact index_of_lt pol v i (List.mem_range.mp hi)
  refine ⟨rfl, rfl, ?_, ?_, ?_, ?_⟩
  · simp only [Ptr.diff, span.end_, span.begin, Ptr.add]
    have hpos : (T.sizeof : Int) ≠ 0 := by
      have : (0 : Int) < (T.sizeof : Int) := by exact_mod_cast hsz
      omega
    rw [add_sub_cancel_left, Int.mul_ediv_cancel_left _ hpos]
  · intro fuel hf
    rw [hidx]
    unfold span.begin span.end_
    rw [forward_walk_eq T.sizeof hsz v.size fuel v.data hf]
  · intro fuel hf
    rw [hidx, ← List.map_reverse]
    unfold span.rbegin span.rend span.begin span.end_
    rw [reverse_walk_eq T.sizeof hsz v.data v.size fuel hf]
  · intro he
    have h0 : v.size = 0 := by simpa [span.empty] using he
    unfold span.begin span.end_
    rw [h0, Ptr.add_zero]

/-- Witness for C20: the forward loop over a five-element `span<int>`. -/
theorem iteration_visits_elements_witness :
    (forward_walk int_t.sizeof 5 five_ints.begin five_ints.end_).map Outcome.returned
      = (List.range five_ints.size).map (fun i => five_ints.index .throw_on_violation i) :=
  (iteration_visits_elements 64 int_t (dynamic_extent 64) .throw_on_violation five_ints
    (by decide)).2.2.2.1 5 (by decide)

/-! ## Default construction -/

/-- C21: the default constructor is available exactly when the extent is
`dynamic_extent` or the fixed length 0, and the view it constructs has
`size() == 0`, `empty() == true` and `data() == nullptr`; so `span<int>()` and
`span<int, 0>()` are such views and `span<int, 3>()` does not compile. -/
theorem default_construction (w : Nat) (T : ElementType) (E : Nat) :
    ((span.construct_default w T E).isSome = true ↔ (E = dynamic_extent w ∨ E = 0)) ∧
    (∀ v : span w T E, span.construct_default w T E = some v →
      v.size = 0 ∧ v.empty = true ∧ v.data = nullptr) ∧
    span.construct_default 64 int_t (dynamic_extent 64) = some ⟨⟨nullptr, 0⟩⟩ ∧
    span.construct_default 64 int_t 0 = some ⟨⟨nullptr, 0⟩⟩ ∧
    span.construct_default 64 int_t 3 = none := by
  refine ⟨?_, ?_, by decide, by decide, by decide⟩
  · unfold span.construct_default span.default_ctor_declared
    split
    · rename_i h
      simp only [Bool.or_eq_true, beq_iff_eq, decide_eq_true_eq, Nat.le_zero_eq] at h
      simp [h]
    · rename_i h
      simp only [Bool.or_eq_true, beq_iff_eq, decide_eq_true_eq, Nat.le_zero_eq] at h
      simp [h]
  · intro v hv
    unfold span.construct_default span.default_ctor_declared at hv
    split at hv
    · rename_i h
      simp only [Bool.or_eq_true, beq_iff_eq, decide_eq_true_eq, Nat.le_zero_eq] at h
      have hv2 : v = span.mk_default w T E := by simpa using hv.symm
      subst hv2
      have hs : (span.mk_default w T E).size = 0 := by
        unfold span.size span_storage.size span.mk_default span_storage.init_default
        rcases h with h | h
        · simp [h]
        · split <;> simp_all
      exact ⟨hs, by simp [span.empty, hs], rfl⟩
    · simp at hv

/-! ## Tuple protocol -/

/-- C22: for a view `s` of fixed length `N` and every index `I < N`: `get<I>(s)`
is the access `s[I]`, returns the reference to element `I` without a contract
violation, and `tuple_element` is the element type; `tuple_size` is `N`, so a
structured binding of `s` has `N` bindings, binding `i` aliasing element `i`;
writing `x` through binding `k` changes element `k` of the source array and no
other element.  For a run-time-length view `tuple_size` is incomplete and the
structured binding is rejected. -/
theorem get_and_structured_binding (w : Nat) (T : ElementType) (N : Nat) (pol : Policy)
    (hN : N ≠ dynamic_extent w) (s : span w T N) (m : Memory) (x : List Nat)
    (hx : x.length = T.sizeof) :
    (∀ I, I < N →
      get pol I s = s.index pol I ∧ get pol I s = .returned (s.data.add T.sizeof I) ∧
      (get pol I s).is_violation = false ∧ tuple_element w T N I = some T) ∧
    tuple_size w N = some N ∧
    structured_binding pol s
      = some ((List.range N).map fun (i : Nat) => Outcome.returned (s.data.add T.sizeof i)) ∧
    (∀ k, k < N →
      (m.store_through (get pol k s) x).load T.sizeof (s.data.add T.sizeof k) = x ∧
      ∀ j, j < N → j ≠ k →
        (m.store_through (get pol k s) x).load T.sizeof (s.data.add T.sizeof j)
          = m.load T.sizeof (s.data.add T.sizeof j)) ∧
    tuple_size w (dynamic_extent w) = none ∧
    (∀ d : span w T (dynamic_extent w), structured_binding pol d = none) := by
  have hsize : s.size = N := size_of_fixed hN s
  have hget : ∀ I, I < N → get pol I s = .returned (s.data.add T.sizeof I) := by
    intro I hI
    unfold get
    exact index_of_lt pol s I (by omega)
  have hts : tuple_size w N = some N := by
    unfold tuple_size
    rw [if_neg hN]
  refine ⟨?_, hts, ?_, ?_, ?_, ?_⟩
  · intro I hI
    refine ⟨rfl, hget I hI, by rw [hget I hI]; rfl, ?_⟩
    unfold tuple_element
    rw [if_pos ⟨hN, hI⟩]
  · unfold structured_binding
    rw [hts]
    simp only [Option.some.injEq]
    apply List.map_congr_left
    intro i hi
    exact hget i (List.mem_range.mp hi)
  · intro k hk
    rw [hget k hk]
    simp only [Memory.store_through]
    refine ⟨?_, ?_⟩
    · rw [← hx]
      exact load_store_same m _ x
    · intro j _ hjk
      apply load_store_disjoint
      rw [hx]
      exact elements_disjoint T.sizeof s.data j k hjk
  · unfold tuple_size
    rw [if_pos rfl]
  · intro d
    unfold structured_binding tuple_size
    rw [if_pos rfl]

/-- Witness for C22: `int arr[3]` at 4096 and `auto &&[a1, a2, a3] = make_span(arr)`:
three bindings at 4096, 4100, 4104, and `a1 = 99` stores into `arr[0]`. -/
theorem get_and_structured_binding_witness :
    make_span_array 64 three_ints_array = some three_ints_fixed ∧
    structured_binding .throw_on_violation three_ints_fixed
      = some ((List.range 3).map fun (i : Nat) =>
          Outcome.returned (three_ints_fixed.data.add int_t.sizeof i)) ∧
    structured_binding .throw_on_violation three_ints_fixed
      = some [.returned ⟨4096⟩, .returned ⟨4100⟩, .returned ⟨4104⟩] ∧
    (six_ints_memory.store_through (get .throw_on_violation 0 three_ints_fixed)
        [99, 0, 0, 0]).load 4 three_ints_array.data = [99, 0, 0, 0] :=
  ⟨by decide,
    (get_and_structured_binding 64 int_t 3 .throw_on_violation (by decide) three_ints_fixed
      six_ints_memory [99, 0, 0, 0] (by decide)).2.2.1,
    by decide, by decide⟩

/-! ## Construction from arrays and containers -/

/-- C23: for an array `a` of `N` elements (raw array or `std::array`) whose
pointee type converts to `T`, the view built from `a` with the fixed extent
`N` or with `dynamic_extent`, and the one `make_span(a)` builds, have
`size() == N`, `data()` at the first element of `a`, and `v[i]` the element
`a[i]`, holding the same bytes, for every `i < N`.  For a container `c` with
`data()` and `size()` whose pointee type converts to `T`, the run-time-length
view built from `c`, and the one `make_span(c)` builds, through the overload
for `Container &` as through the overload for `const Container &` (into a span
of `const value_type`), have `size() == c.size()`, `data() == c.data()` and
`v[i]` the element `c[i]`; `make_span` accepts an argument only if it is a
container whose `data()` converts, and `make_span` of a span is that span.  No
container is accepted by a fixed-length destination. -/
theorem array_and_container_ctors (w : Nat) (T : ElementType) (pol : Policy) (m : Memory)
    (arr : ArrayArg) (c : ContainerArg) (value_type : ElementType) :
    (is_array_ptr_convertible arr.pointee T = true → T.sizeof = arr.pointee.sizeof →
      ∀ Extent, Extent = arr.N ∨ Extent = dynamic_extent w →
        ∃ v : span w T Extent,
          span.mk_array w T Extent arr = some v ∧ v.size = arr.N ∧ v.data = arr.data ∧
          ∀ i, i < arr.N →
            v.index pol i = .returned (arr.data.add arr.pointee.sizeof i) ∧
            m.load_through T.sizeof (v.index pol i)
              = some (m.load arr.pointee.sizeof (arr.data.add arr.pointee.sizeof i))) ∧
    (∃ v : span w arr.pointee arr.N,
      make_span_array w arr = some v ∧ v.size = arr.N ∧ v.data = arr.data ∧
      ∀ i, i < arr.N → v.index pol i = .returned (arr.data.add arr.pointee.sizeof i)) ∧
    (is_container c = true → c.data_is_void = false →
      is_array_ptr_convertible c.pointee T = true → T.sizeof = c.pointee.sizeof →
      ∃ v : span w T (dynamic_extent w),
        span.mk_container w T (dynamic_extent w) c = some v ∧ v.size = c.size ∧
        v.data = c.data ∧
        ∀ i, i < c.size →
          v.index pol i = .returned (c.data.add c.pointee.sizeof i) ∧
          m.load_through T.sizeof (v.index pol i)
            = some (m.load c.pointee.sizeof (c.data.add c.pointee.sizeof i))) ∧
    (is_container c = true → c.data_is_void = false →
      ∃ v : span w c.pointee (dynamic_extent w),
        make_span_container w c = some v ∧ v.size = c.size ∧ v.data = c.data ∧
        ∀ i, i < c.size → v.index pol i = .returned (c.data.add c.pointee.sizeof i)) ∧
    (is_container c = true → c.data_is_void = false →
      is_array_ptr_convertible c.pointee value_type.add_const = true →
      value_type.sizeof = c.pointee.sizeof →
      ∃ v : span w value_type.add_const (dynamic_extent w),
        make_span_const_container w value_type c = some v ∧ v.size = c.size ∧
        v.data = c.data ∧
        ∀ i, i < c.size →
          v.index pol i = .returned (c.data.add c.pointee.sizeof i) ∧
          m.load_through value_type.add_const.sizeof (v.index pol i)
            = some (m.load c.pointee.sizeof (c.data.add c.pointee.sizeof i))) ∧
    ((make_span_const_container w value_type c).isSome = true →
      is_container c = true ∧ c.data_is_void = false ∧
      is_array_ptr_convertible c.pointee value_type.add_const = true) ∧
    ((make_span_container w c).isSome = true →
      is_container c = true ∧ c.data_is_void = false) ∧
    (∀ (E : Nat) (s : span w T E), make_span_span s = s) ∧
    (∀ N, N ≠ dynamic_extent w → span.mk_container w T N c = none) ∧
    make_span_array 64 three_ints_array = some three_ints_fixed ∧
    span.mk_array 64 const_int_t (dynamic_extent 64) three_ints_array
      = some ⟨⟨three_ints_array.data, 3⟩⟩ ∧
    make_span_container 64 vec_int_ref = some ⟨⟨vec_int_ref.data, 3⟩⟩ ∧
    span.mk_container 64 const_int_t (dynamic_extent 64) ilist_int
      = some ⟨⟨ilist_int.data, 3⟩⟩ ∧
    make_span_container 64 string_view_hello = some ⟨⟨string_view_hello.data, 5⟩⟩ ∧
    make_span_const_container 64 int_t vec_int_const_ref = some ⟨⟨vec_int_const_ref.data, 3⟩⟩ ∧
    span.mk_container 64 int_t (dynamic_extent 64) deque_int_ref = none := by
  have harr : ∀ (U : ElementType) (X : Nat), X = arr.N ∨ X = dynamic_extent w →
      is_array_ptr_convertible arr.pointee U = true → U.sizeof = arr.pointee.sizeof →
      ∃ v : span w U X,
        span.mk_array w U X arr = some v ∧ v.size = arr.N ∧ v.data = arr.data ∧
        ∀ i, i < arr.N → v.index pol i = .returned (arr.data.add arr.pointee.sizeof i) := by
    intro U X hX hc hs
    obtain ⟨v, h1, h2, h3⟩ := mk_array_some w U X arr
      (by rcases hX with h | h
          · exact Or.inr h.symm
          · exact Or.inl h) hc
    refine ⟨v, h1, h2, h3, ?_⟩
    intro i hi
    rw [index_of_lt pol v i (by omega), h3, hs]
  have hcont : ∀ (U : ElementType), is_container c = true → c.data_is_void = false →
      is_array_ptr_convertible c.pointee U = true → U.sizeof = c.pointee.sizeof →
      ∃ v : span w U (dynamic_extent w),
        span.mk_container w U (dynamic_extent w) c = some v ∧ v.size = c.size ∧
        v.data = c.data ∧
        ∀ i, i < c.size → v.index pol i = .returned (c.data.add c.pointee.sizeof i) := by
    intro U h1 h2 h3 hs
    refine ⟨⟨⟨c.data, c.size⟩⟩, mk_container_some w U c h1 h2 h3, size_of_dynamic _ _, rfl, ?_⟩
    intro i hi
    rw [index_of_lt pol _ i (by rw [size_of_dynamic]; exact hi), hs]
    rfl
  have hsome : ∀ (U : ElementType), (span.mk_container w U (dynamic_extent w) c).isSome = true →
      is_container c = true ∧ c.data_is_void = false ∧
      is_array_ptr_convertible c.pointee U = true := by
    intro U h
    unfold span.mk_container at h
    split at h
    · rename_i hc
      simp only [Bool.and_eq_true, beq_iff_eq, is_container_element_type_compatible,
        Bool.not_eq_true'] at hc
      exact ⟨hc.1.2, hc.2.1, hc.2.2⟩
    · simp at h
  refine ⟨?_, ?_, ?_, ?_, ?_, ?_, ?_, fun _ _ => rfl, ?_, by decide, by decide, by decide,
    by decide, by decide, by decide, by decide⟩
  · intro hc hs Extent hX
    obtain ⟨v, h1, h2, h3, h4⟩ := harr T Extent hX hc hs
    refine ⟨v, h1, h2, h3, ?_⟩
    intro i hi
    refine ⟨h4 i hi, ?_⟩
    rw [h4 i hi, hs]
    rfl
  · exact harr arr.pointee arr.N (Or.inl rfl) (is_array_ptr_convertible_refl _) rfl
  · intro h1 h2 h3 hs
    obtain ⟨v, g1, g2, g3, g4⟩ := hcont T h1 h2 h3 hs
    refine ⟨v, g1, g2, g3, ?_⟩
    intro i hi
    refine ⟨g4 i hi, ?_⟩
    rw [g4 i hi, hs]
    rfl
  · intro h1 h2
    exact hcont c.pointee h1 h2 (is_array_ptr_convertible_refl _) rfl
  · intro h1 h2 h3 hs
    have hs2 : value_type.add_const.sizeof = c.pointee.sizeof := hs
    obtain ⟨v, g1, g2, g3, g4⟩ := hcont value_type.add_const h1 h2 h3 hs2
    refine ⟨v, g1, g2, g3, ?_⟩
    intro i hi
    refine ⟨g4 i hi, ?_⟩
    rw [g4 i hi, hs2]
    rfl
  · intro h
    exact hsome value_type.add_const h
  · intro h
    obtain ⟨h1, h2, _⟩ := hsome c.pointee h
    exact ⟨h1, h2⟩
  · intro N hN
    unfold span.mk_container
    rw [if_neg]
    simp [hN]

/-! ## Byte views never fail -/

/-- C24: for every view `v`, of fixed or run-time length, and under every policy,
so in particular with checking enabled, `as_bytes(v)` returns without a
contract violation, and so does `as_writable_bytes(v)` wherever it is declared:
for a fixed extent the count passed, `size_bytes()`, and the extent of the
byte view, `sizeof(element) * E`, are the same `size_t` value, so the
constructor's check `count == extent` holds. -/
theorem byte_views_never_fail (w : Nat) (T : ElementType) (E : Nat) (pol : Policy)
    (v : span w T E) :
    (as_bytes pol v).is_violation = false ∧
    (∃ b, as_bytes pol v = .returned b ∧ b.data = v.data ∧ b.size = v.size_bytes) ∧
    (∀ o, as_writable_bytes pol v = some o →
      o.is_violation = false ∧ ∃ b, o = .returned b ∧ b.data = v.data ∧ b.size = v.size_bytes) ∧
    (E ≠ dynamic_extent w → v.size_bytes = bytes_extent w T E) ∧
    (E ≠ dynamic_extent w → bytes_extent w T E = size_mul w T.sizeof E) := by
  obtain ⟨b, h1, h2, h3⟩ := bytes_ctor_ok const_byte_t pol v
  obtain ⟨b2, g1, g2, g3⟩ := bytes_ctor_ok byte_t pol v
  have hab : as_bytes pol v = .returned b := by
    unfold as_bytes
    rw [h1]
    rfl
  refine ⟨by rw [hab]; rfl, ⟨b, hab, h3, h2⟩, ?_, ?_, ?_⟩
  · intro o ho
    unfold as_writable_bytes at ho
    split at ho
    · simp at ho
    · rw [g1] at ho
      have ho2 : o = .returned b2 := by simpa [Outcome.noexcept] using ho.symm
      subst ho2
      exact ⟨rfl, b2, rfl, g3, g2⟩
  · intro hE
    unfold span.size_bytes bytes_extent size_mul
    rw [if_neg hE, size_of_fixed hE, Nat.mul_comm]
  · intro hE
    unfold bytes_extent
    rw [if_neg hE]

/-! ## Relations between the sub-view operations -/

/-- C25: for every view `v` and all constants `N`, `O`, `C`, under every policy:
`first<N>()` and `first(N)` agree, `subspan<O, C>()` and `subspan(O, C)` agree,
`subspan<O>()` and `subspan(O)` agree, and `last<N>()` and `last(N)` agree when
checking is enabled or `N <= v.size()`: both calls signal a contract
violation, or both return views with equal `data()` and equal `size()`.
With checking disabled and `N > v.size()` both overloads of `last` form a
pointer outside the referent; the two views then have equal `size()` and
`data()` addresses that are equal modulo `2^w`. -/
theorem subview_families_agree (w : Nat) (T : ElementType) (E : Nat) (pol : Policy)
    (v : span w T E) (hv : v.size < 2 ^ w) (N O C : Nat) :
    same_outcome (v.first_fixed pol N) (v.first pol N) ∧
    (pol ≠ .no_checking ∨ N ≤ v.size → same_outcome (v.last_fixed pol N) (v.last pol N)) ∧
    same_outcome (v.subspan_fixed pol O C) (v.subspan pol O C) ∧
    same_outcome (v.subspan_fixed pol O (dynamic_extent w)) (v.subspan_from pol O) ∧
    (pol = .no_checking → v.size < N → N < 2 ^ w →
      ∃ r s, v.last_fixed pol N = .returned r ∧ v.last pol N = .returned s ∧
        r.size = s.size ∧ (r.data.addr - s.data.addr) % (2 : Int) ^ w = 0) := by
  have hsub : ∀ O2 C2 : Nat,
      same_outcome (v.subspan_fixed pol O2 C2) (v.subspan pol O2 C2) := by
    intro O2 C2
    unfold span.subspan_fixed span.subspan
    rcases check_cases pol (decide (O2 ≤ v.size) &&
        (C2 == dynamic_extent w || decide (size_add w O2 C2 ≤ v.size))) with h | ⟨hc, hpol⟩
    · right
      obtain ⟨r, h1, h2, h3⟩ := mk_ptr_count_ok w T (subspan_extent w E O2 C2) pol
        (v.data.add T.sizeof O2) (if C2 ≠ dynamic_extent w then C2 else size_sub w v.size O2)
        (subspan_fixed_ctor_ok v O2 C2)
      refine ⟨r, ⟨⟨v.data.add T.sizeof O2,
        if C2 = dynamic_extent w then size_sub w v.size O2 else C2⟩⟩, ?_, ?_, ?_, ?_⟩
      · rw [expect_bind_skip pol _ _ h, h1]
      · rw [expect_bind_skip pol _ _ h, mk_ptr_count_dynamic]
      · rw [h3]; rfl
      · rw [h2, size_of_dynamic]
        by_cases hC : C2 = dynamic_extent w <;> simp [hC]
    · left
      exact ⟨expect_bind_fail pol _ _ hc hpol, expect_bind_fail pol _ _ hc hpol⟩
  refine ⟨?_, ?_, hsub O C, hsub O (dynamic_extent w), ?_⟩
  · unfold span.first_fixed span.first
    rcases check_cases pol (decide (N ≤ v.size)) with h | ⟨hc, hpol⟩
    · right
      obtain ⟨r, h1, h2, h3⟩ := mk_ptr_count_ok w T N pol v.data N (Or.inr rfl)
      refine ⟨r, ⟨⟨v.data, N⟩⟩, ?_, ?_, ?_, ?_⟩
      · rw [expect_bind_skip pol _ _ h, h1]
      · rw [expect_bind_skip pol _ _ h, mk_ptr_count_dynamic]
      · rw [h3]; rfl
      · rw [h2, size_of_dynamic]
    · left
      exact ⟨expect_bind_fail pol _ _ hc hpol, expect_bind_fail pol _ _ hc hpol⟩
  · intro hdef
    unfold span.last_fixed span.last
    rcases check_cases pol (decide (N ≤ v.size)) with h | ⟨hc, hpol⟩
    · have hN : N ≤ v.size := by
        rcases h with h | h
        · simpa using h
        · rcases hdef with h2 | h2
          · exact absurd h h2
          · exact h2
      right
      obtain ⟨r, h1, h2, h3⟩ := mk_ptr_count_ok w T N pol
        (v.data.add T.sizeof (size_sub w v.size N)) N (Or.inr rfl)
      refine ⟨r, ⟨⟨(v.data.add T.sizeof v.size).sub T.sizeof N, N⟩⟩, ?_, ?_, ?_, ?_⟩
      · rw [expect_bind_skip pol _ _ h, h1]
      · rw [expect_bind_skip pol _ _ h, mk_ptr_count_dynamic]
      · rw [h3, size_sub_of_le w _ _ hN hv, data_of_dynamic, Ptr.add_sub _ _ _ _ hN]
      · rw [h2, size_of_dynamic]
    · left
      exact ⟨expect_bind_fail pol _ _ hc hpol, expect_bind_fail pol _ _ hc hpol⟩
  · intro hpol hlt hNw
    subst hpol
    obtain ⟨r, h1, h2, h3⟩ := mk_ptr_count_ok w T N .no_checking
      (v.data.add T.sizeof (size_sub w v.size N)) N (Or.inr rfl)
    refine ⟨r, ⟨⟨(v.data.add T.sizeof v.size).sub T.sizeof N, N⟩⟩, ?_, ?_, ?_, ?_⟩
    · unfold span.last_fixed
      rw [expect_bind_skip _ _ _ (Or.inr rfl), h1]
    · unfold span.last
      rw [expect_bind_skip _ _ _ (Or.inr rfl), mk_ptr_count_dynamic]
    · rw [h2, size_of_dynamic]
    · have hsub : size_sub w v.size N = v.size + 2 ^ w - N := by
        unfold size_sub
        exact Nat.mod_eq_of_lt (by omega)
      rw [h3, data_of_dynamic, hsub]
      simp only [Ptr.add, Ptr.sub]
      have hcast : ((v.size + 2 ^ w - N : Nat) : Int)
          = (v.size : Int) + (2 : Int) ^ w - (N : Int) := by
        rw [Nat.cast_sub (by omega)]
        push_cast
        ring
      rw [hcast]
      have e : v.data.addr + (T.sizeof : Int) * ((v.size : Int) + (2 : Int) ^ w - (N : Int))
          - (v.data.addr + (T.sizeof : Int) * (v.size : Int) - (T.sizeof : Int) * (N : Int))
          = (T.sizeof : Int) * (2 : Int) ^ w := by ring
      rw [e]
      exact Int.mul_emod_left _ _

/-- Witness for C25: a five-element `span<int>` and the constants 3, 1, 3. -/
theorem subview_families_agree_witness :
    same_outcome (five_ints.first_fixed .throw_on_violation 3)
      (five_ints.first .throw_on_violation 3) ∧
    same_outcome (five_ints.subspan_fixed .throw_on_violation 1 3)
      (five_ints.subspan .throw_on_violation 1 3) :=
  have h := subview_families_agree 64 int_t (dynamic_extent 64) .throw_on_violation five_ints
    (by decide) 3 1 3
  ⟨h.1, h.2.2.1⟩

/-- C26, the code at `k = SIZE_MAX` on a five-element `span<int>`, checking
enabled: `k > v.size()`, and `first(k)` and `last(k)` signal a contract
violation, but `subspan(0, k)` reads `k` as the sentinel `dynamic_extent` and
returns the whole view. -/
theorem subspan_sentinel_count_accepted :
    five_ints.size < 2 ^ 64 - 1 ∧
    2 ^ 64 - 1 = dynamic_extent 64 ∧
    (five_ints.first .throw_on_violation (2 ^ 64 - 1)).is_violation = true ∧
    (five_ints.last .throw_on_violation (2 ^ 64 - 1)).is_violation = true ∧
    (five_ints.subspan .throw_on_violation 0 (2 ^ 64 - 1)).is_violation = false ∧
    five_ints.subspan .throw_on_violation 0 (2 ^ 64 - 1)
      = .returned ⟨⟨five_ints.data, five_ints.size⟩⟩ := by
  refine ⟨by decide, by decide, by decide, by decide, by decide, by decide⟩

/-- C26 as amended: for every view `v` and every `k <= v.size()`, under every
policy, `v.first(k)` is `v.subspan(0, k)` and `v.last(k)` is
`v.subspan(v.size() - k, k)`, the same returned view.  With checking enabled,
for every `size_t` count `k > v.size()` other than `dynamic_extent`, the three
calls `first(k)`, `last(k)`, `subspan(0, k)` signal a contract violation; for
`k = dynamic_extent > v.size()`, `first(k)` and `last(k)` signal one and
`subspan(0, k)` returns the whole view. -/
theorem first_last_as_subspan (w : Nat) (T : ElementType) (E : Nat) (pol : Policy)
    (v : span w T E) (hv : v.size < 2 ^ w) :
    (∀ k, k ≤ v.size →
      v.first pol k = v.subspan pol 0 k ∧ v.last pol k = v.subspan pol (v.size - k) k ∧
      (v.first pol k).is_violation = false ∧ (v.last pol k).is_violation = false) ∧
    (pol ≠ .no_checking → ∀ k, v.size < k → k < 2 ^ w → k ≠ dynamic_extent w →
      (v.first pol k).is_violation = true ∧ (v.last pol k).is_violation = true ∧
      (v.subspan pol 0 k).is_violation = true) ∧
    (pol ≠ .no_checking → v.size < dynamic_extent w →
      (v.first pol (dynamic_extent w)).is_violation = true ∧
      (v.last pol (dynamic_extent w)).is_violation = true ∧
      v.subspan pol 0 (dynamic_extent w) = .returned ⟨⟨v.data, v.size⟩⟩) := by
  have hfl : ∀ k, v.size < k → pol ≠ .no_checking →
      (v.first pol k).is_violation = true ∧ (v.last pol k).is_violation = true := by
    intro k hk hpol
    unfold span.first span.last
    exact ⟨expect_bind_fail pol _ _ (by simpa using hk) hpol,
      expect_bind_fail pol _ _ (by simpa using hk) hpol⟩
  refine ⟨?_, ?_, ?_⟩
  · intro k hk
    have h1 := first_returns pol v k hk
    have h2 := last_returns pol v k hk
    have h3 := subspan_returns_any pol v hv 0 k (by omega)
    have h4 := subspan_returns_any pol v hv (v.size - k) k (by omega)
    rw [Ptr.add_zero] at h3
    refine ⟨by rw [h1, h3], by rw [h2, h4], by rw [h1]; rfl, by rw [h2]; rfl⟩
  · intro hpol k hk hkw hkd
    refine ⟨(hfl k hk hpol).1, (hfl k hk hpol).2, ?_⟩
    unfold span.subspan
    apply expect_bind_fail pol _ _ _ hpol
    have : size_add w 0 k = k := by
      unfold size_add
      rw [Nat.zero_add, Nat.mod_eq_of_lt hkw]
    simp [this, hkd, hk]
  · intro hpol hk
    refine ⟨(hfl _ hk hpol).1, (hfl _ hk hpol).2, ?_⟩
    have h := subspan_from_returns pol v hv 0 (Nat.zero_le _)
    unfold span.subspan_from at h
    rw [h, Ptr.add_zero, Nat.sub_zero]

/-- Witness for C26 as amended: a five-element `span<int>`, `k = 3`. -/
theorem first_last_as_subspan_witness :
    five_ints.first .throw_on_violation 3 = five_ints.subspan .throw_on_violation 0 3 ∧
    five_ints.last .throw_on_violation 3
      = five_ints.subspan .throw_on_violation (five_ints.size - 3) 3 :=
  have h := (first_last_as_subspan 64 int_t (dynamic_extent 64) .throw_on_violation five_ints
    (by decide)).1 3 (by decide)
  ⟨h.1, h.2.1⟩

/-- C27: for every view `v`, under every policy: if `o1 + c1 <= v.size()` and
`o2 + c2 <= c1`, then `v.subspan(o1, c1).subspan(o2, c2)` returns without a
contract violation and is the view `v.subspan(o1 + o2, c2)` returns; and if
`o1 + o2 <= v.size()`, then `v.subspan(o1).subspan(o2)` is the view
`v.subspan(o1 + o2)` returns.  The sum `o1 + o2` does not wrap. -/
theorem subspan_composes (w : Nat) (T : ElementType) (E : Nat) (pol : Policy)
    (v : span w T E) (hv : v.size < 2 ^ w) :
    (∀ o1 c1 o2 c2, o1 + c1 ≤ v.size → o2 + c2 ≤ c1 →
      size_add w o1 o2 = o1 + o2 ∧
      ∃ inner r : span w T (dynamic_extent w),
        v.subspan pol o1 c1 = .returned inner ∧ inner.subspan pol o2 c2 = .returned r ∧
        v.subspan pol (o1 + o2) c2 = .returned r ∧
        r.data = v.data.add T.sizeof (o1 + o2) ∧ r.size = c2) ∧
    (∀ o1 o2, o1 + o2 ≤ v.size →
      size_add w o1 o2 = o1 + o2 ∧
      ∃ inner r : span w T (dynamic_extent w),
        v.subspan_from pol o1 = .returned inner ∧ inner.subspan_from pol o2 = .returned r ∧
        v.subspan_from pol (o1 + o2) = .returned r ∧
        r.data = v.data.add T.sizeof (o1 + o2) ∧ r.size = v.size - (o1 + o2)) := by
  constructor
  · intro o1 c1 o2 c2 h1 h2
    have hin : (⟨⟨v.data.add T.sizeof o1, c1⟩⟩ : span w T (dynamic_extent w)).size = c1 :=
      size_of_dynamic _ _
    refine ⟨Nat.mod_eq_of_lt (by omega), ⟨⟨v.data.add T.sizeof o1, c1⟩⟩,
      ⟨⟨v.data.add T.sizeof (o1 + o2), c2⟩⟩, subspan_returns_any pol v hv o1 c1 h1, ?_,
      subspan_returns_any pol v hv (o1 + o2) c2 (by omega), rfl, size_of_dynamic _ _⟩
    rw [subspan_returns_any pol _ (by rw [hin]; omega) o2 c2 (by rw [hin]; exact h2),
      data_of_dynamic, Ptr.add_add]
  · intro o1 o2 h
    have hin : (⟨⟨v.data.add T.sizeof o1, v.size - o1⟩⟩ : span w T (dynamic_extent w)).size
        = v.size - o1 := size_of_dynamic _ _
    refine ⟨Nat.mod_eq_of_lt (by omega), ⟨⟨v.data.add T.sizeof o1, v.size - o1⟩⟩,
      ⟨⟨v.data.add T.sizeof (o1 + o2), v.size - (o1 + o2)⟩⟩,
      subspan_from_returns pol v hv o1 (by omega), ?_,
      subspan_from_returns pol v hv (o1 + o2) h, rfl, size_of_dynamic _ _⟩
    rw [subspan_from_returns pol _ (by rw [hin]; omega) o2 (by rw [hin]; omega),
      data_of_dynamic, Ptr.add_add, hin, Nat.sub_sub]

/-- Witness for C27: `subspan(1, 4).subspan(1, 2)` of a five-element `span<int>`. -/
theorem subspan_composes_witness :
    size_add 64 1 1 = 1 + 1 ∧
    ∃ inner r : span 64 int_t (dynamic_extent 64),
      five_ints.subspan .throw_on_violation 1 4 = .returned inner ∧
      inner.subspan .throw_on_violation 1 2 = .returned r ∧
      five_ints.subspan .throw_on_violation (1 + 1) 2 = .returned r ∧
      r.data = five_ints.data.add int_t.sizeof (1 + 1) ∧ r.size = 2 :=
  (subspan_composes 64 int_t (dynamic_extent 64) .throw_on_violation five_ints (by decide)).1
    1 4 1 2 (by decide) (by decide)

/-! ## Selection of the contract policy -/

/-- C28: for the macros `f` of a translation unit.  When none of the throw,
terminate and no-checking macros is defined, the header selects no checking if
`NDEBUG` is defined or the language level is below C++14, and
terminate-on-violation otherwise.  Whenever `DD_SPAN_NO_CONTRACT_CHECKING` is in
effect, selected by default or defined by the user (even together with a throw
or terminate macro), `DD_SPAN_EXPECT` expands to nothing and the policy is no
checking; otherwise the throw macro takes precedence over the terminate macro.
The expansion of `DD_SPAN_EXPECT` is the check of the selected policy, and
under no checking no constructor, accessor, sub-view or byte-view call signals
a contract violation, whatever its arguments. -/
theorem policy_selection (f : BuildFlags) (w : Nat) (T : ElementType) (E : Nat)
    (v : span w T E) (a b : Nat) (p q : Ptr) :
    (f.throw_on_contract_violation = false → f.terminate_on_contract_violation = false →
      f.no_contract_checking = false →
      selected_policy f
        = if f.ndebug || !f.have_cpp14 then .no_checking else .terminate_on_violation) ∧
    (f.no_contract_checking = true → f.after_default.no_contract_checking = true) ∧
    (f.after_default.no_contract_checking = true →
      selected_policy f = .no_checking ∧
      ∀ cond, DD_SPAN_EXPECT_expansion f cond = some (.returned ())) ∧
    (f.after_default.no_contract_checking = false →
      selected_policy f
        = if f.throw_on_contract_violation then .throw_on_violation
          else .terminate_on_violation) ∧
    (∀ cond, DD_SPAN_EXPECT_expansion f cond = some (DD_SPAN_EXPECT (selected_policy f) cond)) ∧
    selected_policy ⟨false, false, false, false, true⟩ = .terminate_on_violation ∧
    selected_policy ⟨false, false, false, true, true⟩ = .no_checking ∧
    selected_policy ⟨false, false, false, false, false⟩ = .no_checking ∧
    selected_policy ⟨true, true, false, false, true⟩ = .throw_on_violation ∧
    selected_policy ⟨true, false, true, false, true⟩ = .no_checking ∧
    ((span.mk_ptr_count w T E .no_checking p a).is_violation = false ∧
      (span.mk_first_last w T E .no_checking p q).is_violation = false ∧
      (v.index .no_checking a).is_violation = false ∧
      (v.front .no_checking).is_violation = false ∧
      (v.back .no_checking).is_violation = false ∧
      (v.first .no_checking a).is_violation = false ∧
      (v.last .no_checking a).is_violation = false ∧
      (v.subspan .no_checking a b).is_violation = false ∧
      (v.first_fixed .no_checking a).is_violation = false ∧
      (v.last_fixed .no_checking a).is_violation = false ∧
      (v.subspan_fixed .no_checking a b).is_violation = false ∧
      (as_bytes .no_checking v).is_violation = false ∧
      (get .no_checking a v).is_violation = false) := by
  obtain ⟨ft, fm, fn, fd, fc⟩ := f
  refine ⟨?_, ?_, ?_, ?_, ?_, by decide, by decide, by decide, by decide, by decide, ?_⟩
  · intro h1 h2 h3
    simp only at h1 h2 h3
    subst h1 h2 h3
    cases fd <;> cases fc <;> rfl
  · intro h
    simp only at h
    subst h
    cases ft <;> cases fm <;> rfl
  · intro h
    refine ⟨?_, ?_⟩
    · unfold selected_policy
      rw [if_pos h]
    · intro cond
      unfold DD_SPAN_EXPECT_expansion
      rw [h]
      rfl
  · cases ft <;> cases fm <;> cases fn <;> cases fd <;> cases fc <;> decide
  · intro cond
    cases ft <;> cases fm <;> cases fn <;> cases fd <;> cases fc <;> cases cond <;> rfl
  · refine ⟨rfl, rfl, rfl, rfl, rfl, rfl, rfl, rfl, rfl, rfl, rfl, rfl, rfl⟩

end dd
